import Mathlib

/-!
Verification of the address-resolution and command-execution core of the
go-red line editor, as a shallow embedding in Lean 4.

Conventions of the embedding:
* A Go `Line` (a string including its trailing terminator) is a Lean `String`.
* The `container/list` buffer together with the stashed `dotline` iterator is
  modelled as a `List String` plus the integer current-line number; every
  operation of the source re-derives the iterator from the integer via
  `moveToLine`, so the integer is the whole observable state.
* Go `int` is `Int` (no source path relevant to the claims overflows).
* The external regular-expression engine is a parameter
  `matcher : String → String → Bool` (pattern, line) ↦ matched; the source
  delegates matching to Go `regexp` and never inspects it otherwise.
* Fallible Go functions returning `error` become `Res`/`ExecRes` values; a Go
  `panic` is the distinguished outcome `panicked`, on which no state is
  observable (the program aborts).
* Paths that hand control to an external collaborator that the specification
  scopes out (file I/O, the regex-replace engine, interactive input beyond the
  supplied block of lines) are the distinguished outcome `external`.
-/

namespace GoRed

/-- Error kinds surfaced by the source; messages are not modelled, only the
distinct error identities that the control flow can branch or report on. -/
inductive Err where
  | invalidLine
  | invalidDestination
  | unknownMark
  | noMatch
  | moveToLineFailed
  | unrecognisedAddress
  | syntaxError
  | invalidStartOfRange
  | invalidEndOfRange
  | badRange
  | unrecognisedRange
  | rangeMayNotBeSpecified
  | addressNotResolved
  | nothingToUndo
  | badMarkname
  | notAllowedInGlobalCommand
  | invalidWindowSize
  deriving DecidableEq, Repr

/-- Result of a fallible pure computation; `panicked` models a Go panic. -/
inductive Res (α : Type) where
  | ok (a : α)
  | err (k : Err)
  | panicked
  deriving DecidableEq, Repr

/-- One parsed component of an address, mirroring `addressPart` of the source:
the `addrIdent` constants become constructors, the `info` payload becomes the
constructor argument.  A signed number stores its parsed value and whether the
literal carried an explicit sign (the source recovers this from the first
character of `info`). -/
inductive AddressPart where
  | dot
  | dollar
  | inc
  | dec
  | mark (name : String)
  | reFor (pattern : String)
  | reBack (pattern : String)
  | signednbr (value : Int) (hasSign : Bool)
  | notSpecified
  deriving DecidableEq, Repr

/-- `Address` stores the list of parsed address parts (`internal` in the
source). -/
structure Address where
  parts : List AddressPart
  deriving DecidableEq, Repr

/-- The source constant `endOfFile` (third value of the negative iota block). -/
def endOfFileConst : Int := -2

/-- Mirrors `Address.isNotSpecified`: the first part is the marker. -/
def Address.isNotSpecified (a : Address) : Bool :=
  match a.parts with
  | .notSpecified :: _ => true
  | _ => false

/-- Mirrors `Address.isSpecified`. -/
def Address.isSpecified (a : Address) : Bool := !a.isNotSpecified

/-- Mirrors `newUnspecifiedAddress`. -/
def newUnspecifiedAddress : Address := ⟨[.notSpecified]⟩

/-- Mirrors `newAbsoluteAddress`: the line number is rendered with
`strconv.Itoa`, so the stored literal carries a sign exactly when the number
is negative. -/
def newAbsoluteAddress (lineNbr : Int) : Address :=
  ⟨[.signednbr lineNbr (lineNbr < 0)]⟩

/-! ### Address tokenizer

`newAddress` iterates the regex
`(\.)|(\$)|('[a-z])|(/[^/]*/)|(\?[^?]*\?)|([+-]?\d+)|(\+)|(-)` over the input,
left to right, rejecting any skipped non-blank characters.  Go `regexp` uses
leftmost-first alternation, so at each position the alternatives are tried in
the order above, and a signed number is attempted before a bare `+`/`-`.
The scanner below reproduces exactly that behaviour: skip whitespace, then
match the first alternative that fits at the current position, and fail on a
character no alternative accepts (the source reports such characters through
`checkSkippedChars`). -/

/-- Go `strings.TrimSpace` over the character list (the built-in
`String.trim` is not kernel-reducible, which concrete evaluation needs). -/
def goTrim (s : String) : String :=
  ⟨((s.toList.dropWhile Char.isWhitespace).reverse.dropWhile Char.isWhitespace).reverse⟩

/-- Splits a character list into its longest prefix satisfying `p` and the
rest. -/
def splitWhile (p : Char → Bool) : List Char → List Char × List Char
  | [] => ([], [])
  | c :: cs =>
      if p c then
        let r := splitWhile p cs
        (c :: r.1, r.2)
      else ([], c :: cs)

def isDigitChar (c : Char) : Bool := decide ('0' ≤ c ∧ c ≤ '9')

def isLowerChar (c : Char) : Bool := decide ('a' ≤ c ∧ c ≤ 'z')

/-- Numeric value of a digit string (the scanner guarantees only digits). -/
def digitsToNat (ds : List Char) : Nat :=
  ds.foldl (fun acc c => 10 * acc + (c.toNat - 48)) 0

/-- Prepend a part to a successfully scanned tail. -/
def consPart (p : AddressPart) : Res (List AddressPart) → Res (List AddressPart)
  | .ok ps => .ok (p :: ps)
  | .err k => .err k
  | .panicked => .panicked

/-- The token scanner of `newAddress` (see the section comment).  The fuel
argument is a structural-recursion device: every step consumes at least one
input character, so the wrapper `scanAddress` supplies `length + 1` fuel and
the fuel-exhausted branch is unreachable. -/
def scanAddressF : Nat → List Char → Res (List AddressPart)
  | 0, _ => .err .syntaxError
  | _ + 1, [] => .ok []
  | fuel + 1, c :: cs =>
      if c.isWhitespace then scanAddressF fuel cs
      else if c = '.' then consPart .dot (scanAddressF fuel cs)
      else if c = '$' then consPart .dollar (scanAddressF fuel cs)
      else if c = '\'' then
        match cs with
        | [] => .err .syntaxError
        | d :: cs2 =>
            if isLowerChar d then consPart (.mark (⟨[d]⟩ : String)) (scanAddressF fuel cs2)
            else .err .syntaxError
      else if c = '/' then
        match (splitWhile (fun d => !(d = '/')) cs).2 with
        | '/' :: rest => consPart (.reFor ⟨(splitWhile (fun d => !(d = '/')) cs).1⟩) (scanAddressF fuel rest)
        | _ => .err .syntaxError
      else if c = '?' then
        match (splitWhile (fun d => !(d = '?')) cs).2 with
        | '?' :: rest => consPart (.reBack ⟨(splitWhile (fun d => !(d = '?')) cs).1⟩) (scanAddressF fuel rest)
        | _ => .err .syntaxError
      else if c = '+' then
        match cs with
        | d :: _ =>
            if isDigitChar d then
              consPart (.signednbr (digitsToNat (splitWhile isDigitChar cs).1) true)
                (scanAddressF fuel (splitWhile isDigitChar cs).2)
            else consPart .inc (scanAddressF fuel cs)
        | [] => consPart .inc (scanAddressF fuel [])
      else if c = '-' then
        match cs with
        | d :: _ =>
            if isDigitChar d then
              consPart (.signednbr (-(digitsToNat (splitWhile isDigitChar cs).1 : Int)) true)
                (scanAddressF fuel (splitWhile isDigitChar cs).2)
            else consPart .dec (scanAddressF fuel cs)
        | [] => consPart .dec (scanAddressF fuel [])
      else if isDigitChar c then
        consPart (.signednbr (digitsToNat (c :: (splitWhile isDigitChar cs).1)) false)
          (scanAddressF fuel (splitWhile isDigitChar cs).2)
      else .err .syntaxError

/-- Runs the scanner with sufficient fuel. -/
def scanAddress (cs : List Char) : Res (List AddressPart) :=
  scanAddressF (cs.length + 1) cs

/-- Mirrors `newAddress`: trim, empty input is the unspecified address,
otherwise scan the parts. -/
def newAddress (addrStr : String) : Res Address :=
  let t := goTrim addrStr
  if t = "" then .ok newUnspecifiedAddress
  else
    match scanAddress t.toList with
    | .ok ps => .ok ⟨ps⟩
    | .err k => .err k
    | .panicked => .panicked

/-! ### Searching (`_findLine`, `matchLineForward`, `matchLineBackward`)

`_findLine` walks the linked list from the front counting from 1; it stops
when the counter equals the required line (returning that element) or the
list is exhausted (the counter is then `length + 1`; if that still differs
from the required line the consistency check panics, otherwise it returns
`nil`). -/

/-- Outcome of `_findLine`. -/
inductive FindRes where
  | found
  | nilAtEnd
  | panicked
  deriving DecidableEq, Repr

/-- Mirrors `_findLine` on a buffer of length `len`: the element exists for
`1 ≤ r ≤ len`; the walk ends at counter `len+1`, which returns `nil` when
`r = len+1` and otherwise panics. -/
def findLine (r : Int) (len : Nat) : FindRes :=
  if 1 ≤ r ∧ r ≤ (len : Int) then .found
  else if r = (len : Int) + 1 then .nilAtEnd
  else .panicked

/-- Line `k` (1-based) of the buffer. -/
def lineAt (buffer : List String) (k : Int) : String :=
  buffer.getD (k - 1).toNat ""

/-- First line number in `[lo, hi]` (ascending) whose text matches. -/
def ascSearch (pred : String → Bool) (buffer : List String) (lo hi : Int) : Option Int :=
  ((List.range' lo.toNat (hi + 1 - lo).toNat).find? (fun k => pred (lineAt buffer k))).map
    (fun k => (k : Int))

/-- Last line number in `[lo, hi]` (i.e. first when scanning descending)
whose text matches. -/
def descSearch (pred : String → Bool) (buffer : List String) (lo hi : Int) : Option Int :=
  ((List.range' lo.toNat (hi + 1 - lo).toNat).reverse.find? (fun k => pred (lineAt buffer k))).map
    (fun k => (k : Int))

/-- Mirrors `matchLineForward`: move to `startLine` (its failure modes come
from `_findLine`), scan lines `startLine+1 .. N` forward, then wrap and scan
lines `1 .. startLine` (the loop tests the start line itself last). -/
def matchLineForward (matcher : String → String → Bool) (startLine : Int)
    (reStr : String) (buffer : List String) : Res Int :=
  match findLine startLine buffer.length with
  | .panicked => .panicked
  | .nilAtEnd => .err .moveToLineFailed
  | .found =>
      match ascSearch (matcher reStr) buffer (startLine + 1) buffer.length with
      | some k => .ok k
      | none =>
          match ascSearch (matcher reStr) buffer 1 startLine with
          | some k => .ok k
          | none => .err .noMatch

/-- Mirrors `matchLineBackward`: move to `startLine`, scan lines
`startLine-1 .. 1` backward, then wrap and scan lines `N .. startLine+1`
backward (the start line itself is not retested). -/
def matchLineBackward (matcher : String → String → Bool) (startLine : Int)
    (reStr : String) (buffer : List String) : Res Int :=
  match findLine startLine buffer.length with
  | .panicked => .panicked
  | .nilAtEnd => .err .moveToLineFailed
  | .found =>
      match descSearch (matcher reStr) buffer 1 (startLine - 1) with
      | some k => .ok k
      | none =>
          match descSearch (matcher reStr) buffer (startLine + 1) buffer.length with
          | some k => .ok k
          | none => .err .noMatch

/-! ### Address resolution (`calculateActualLineNumber`) -/

/-- The loop body of `calculateActualLineNumber`: folds the parts over the
running line number and the `parsingAddressOffset` flag. -/
def applyParts (matcher : String → String → Bool) (buffer : List String)
    (marks : List (String × Int)) :
    List AddressPart → Int → Bool → Res Int
  | [], lineNbr, _ => .ok lineNbr
  | part :: rest, lineNbr, offs =>
      match part with
      | .inc => applyParts matcher buffer marks rest (lineNbr + 1) true
      | .dec => applyParts matcher buffer marks rest (lineNbr - 1) true
      | .dollar => applyParts matcher buffer marks rest (buffer.length : Int) true
      | .dot => applyParts matcher buffer marks rest lineNbr true
      | .mark name =>
          match marks.lookup name with
          | some markLineNbr => applyParts matcher buffer marks rest markLineNbr true
          | none => .err .unknownMark
      | .reFor pattern =>
          match matchLineForward matcher lineNbr pattern buffer with
          | .ok k => applyParts matcher buffer marks rest k true
          | .err _ => .err .noMatch
          | .panicked => .panicked
      | .reBack pattern =>
          match matchLineBackward matcher lineNbr pattern buffer with
          | .ok k => applyParts matcher buffer marks rest k true
          | .err _ => .err .noMatch
          | .panicked => .panicked
      | .signednbr value hasSign =>
          if offs then applyParts matcher buffer marks rest (lineNbr + value) offs
          else if hasSign then applyParts matcher buffer marks rest (lineNbr + value) true
          else applyParts matcher buffer marks rest value true
      | .notSpecified => .err .unrecognisedAddress

/-- Mirrors `calculateActualLineNumber`: an unspecified address returns the
current line unchanged; otherwise the parts are folded and the result is
bounds-checked against `[0, N]`. -/
def calculateActualLineNumber (matcher : String → String → Bool) (addr : Address)
    (currentLineNbr : Int) (buffer : List String) (marks : List (String × Int)) : Res Int :=
  if addr.isNotSpecified then .ok currentLineNbr
  else
    match applyParts matcher buffer marks addr.parts currentLineNbr false with
    | .ok lineNbr =>
        if lineNbr < 0 then .err .invalidLine
        else if lineNbr > (buffer.length : Int) then .err .invalidLine
        else .ok lineNbr
    | .err k => .err k
    | .panicked => .panicked

/-! ### Address ranges -/

/-- Mirrors `AddressRange`. -/
structure AddressRange where
  start : Address
  stop : Address
  separator : String
  deriving DecidableEq, Repr

/-- Mirrors `AddressRange.IsSpecified`. -/
def AddressRange.IsSpecified (ra : AddressRange) : Bool :=
  !(ra.start.isNotSpecified && ra.stop.isNotSpecified)

/-- Mirrors `calculateStartAndEndLineNumbers`: an unspecified start defaults
to 1 for a comma separator, the current line for a semicolon (and the Go
zero value 0 when there is no separator); an unspecified end defaults to the
start; a resolved pair with `start > end` (both non-negative) is
`badRange`. -/
def calculateStartAndEndLineNumbers (matcher : String → String → Bool)
    (ra : AddressRange) (currentLineNbr : Int) (buffer : List String)
    (marks : List (String × Int)) : Res (Int × Int) :=
  let startR : Res Int :=
    if ra.start.isNotSpecified then
      .ok (if ra.separator = "," then 1 else if ra.separator = ";" then currentLineNbr else 0)
    else
      match calculateActualLineNumber matcher ra.start currentLineNbr buffer marks with
      | .ok v => .ok v
      | .err _ => .err .invalidStartOfRange
      | .panicked => .panicked
  match startR with
  | .err k => .err k
  | .panicked => .panicked
  | .ok startLine =>
      let endR : Res Int :=
        if ra.stop.isNotSpecified then .ok startLine
        else
          match calculateActualLineNumber matcher ra.stop currentLineNbr buffer marks with
          | .ok v => .ok v
          | .err _ => .err .invalidEndOfRange
          | .panicked => .panicked
      match endR with
      | .err k => .err k
      | .panicked => .panicked
      | .ok endLine =>
          if 0 ≤ startLine ∧ 0 ≤ endLine ∧ startLine > endLine then .err .badRange
          else .ok (startLine, endLine)

/-- Mirrors `getAddressRange`: an unspecified range is the current line for
both start and end; otherwise resolve both sides. -/
def getAddressRange (matcher : String → String → Bool) (ra : AddressRange)
    (currentLineNbr : Int) (buffer : List String) (marks : List (String × Int)) :
    Res (Int × Int) :=
  if !ra.IsSpecified then .ok (currentLineNbr, currentLineNbr)
  else calculateStartAndEndLineNumbers matcher ra currentLineNbr buffer marks

/-- Splits a range string at its unique `,`/`;` separator, mirroring the
anchored regex of `newRange` (two separators make the regex fail). -/
def splitRangeStr (s : String) : Option (String × String × String) :=
  let isSep : Char → Bool := fun c => c = ',' || c = ';'
  let p := splitWhile (fun c => !isSep c) s.toList
  match p.2 with
  | [] => some (⟨p.1⟩, "", "")
  | sep :: rest =>
      if rest.any isSep then none
      else some (⟨p.1⟩, sep.toString, ⟨rest⟩)

/-- The general branch of `newRange` (also reached by the input `"."`, whose
switch case has an empty body). -/
def newRangeGeneral (rangeStr : String) : Res AddressRange :=
  match splitRangeStr rangeStr with
  | none => .err .unrecognisedRange
  | some (a1, sep, a2) =>
      match newAddress a1 with
      | .err k => .err k
      | .panicked => .panicked
      | .ok startAddr =>
          match newAddress a2 with
          | .err k => .err k
          | .panicked => .panicked
          | .ok endAddr => .ok ⟨startAddr, endAddr, sep⟩

/-- Mirrors `newRange`: the empty (after trimming) string gives an
unspecified range with comma separator; `"$"`, `","` and `";"` are special
cases (note that `";"` is stored with a comma separator, as in the source);
everything else, including `"."`, goes through the general branch. -/
def newRange (rangeStr : String) : Res AddressRange :=
  if goTrim rangeStr = "" then
    match newAddress rangeStr with
    | .err k => .err k
    | .panicked => .panicked
    | .ok startAddr => .ok ⟨startAddr, startAddr, ","⟩
  else if rangeStr = "$" then
    match newAddress rangeStr with
    | .err k => .err k
    | .panicked => .panicked
    | .ok startAddr => .ok ⟨startAddr, startAddr, ","⟩
  else if rangeStr = "," then
    match newAddress "1" with
    | .err k => .err k
    | .panicked => .panicked
    | .ok startAddr =>
        match newAddress "$" with
        | .err k => .err k
        | .panicked => .panicked
        | .ok endAddr => .ok ⟨startAddr, endAddr, ","⟩
  else if rangeStr = ";" then
    match newAddress "." with
    | .err k => .err k
    | .panicked => .panicked
    | .ok startAddr =>
        match newAddress "$" with
        | .err k => .err k
        | .panicked => .panicked
        | .ok endAddr => .ok ⟨startAddr, endAddr, ","⟩
  else newRangeGeneral rangeStr

/-! ### Editor state

`State` of the source, restricted to the fields the modelled core reads or
writes.  The `dotline` iterator is represented by `lineNbr` alone (see the
file header).  Go maps (`marks`) are association lists with the usual
replace-on-add discipline; the per-entry updates of `updateMarks` are
order-independent, so the list order is immaterial. -/

/-- Mirrors `Command`: the parsed range, the resolution cache, the command
letter and the rest of the input line. -/
structure Command where
  addrRange : AddressRange
  addressIsResolved : Bool
  resolvedStart : Int
  resolvedEnd : Int
  cmd : String
  restOfCmd : String
  deriving DecidableEq, Repr

/-- Mirrors `Undo`: the inverse command, the saved text (`nil` becomes `[]`),
and the original command.  Undo entries for `substitute` store a list of undo
commands instead of text; the substitute command delegates to the external
regex-replace collaborator and is outside the modelled executor, so such
entries never arise here (their replay is the `external` outcome). -/
structure UndoEntry where
  cmd : Command
  text : List String
  originalCmd : Command
  deriving DecidableEq, Repr

/-- Mirrors `State` (modelled fields). -/
structure EdState where
  buffer : List String
  cutBuffer : List String
  lineNbr : Int
  marks : List (String × Int)
  undoStack : List UndoEntry
  processingUndo : Bool
  changedSinceLastWrite : Bool
  defaultFilename : String
  windowSize : Int
  showPrompt : Bool
  deriving DecidableEq, Repr

/-- Result of executing a command: success with the quit flag, an error with
the state as the call left it (the source mutates in place), a panic,
`external` for paths delegated to an unmodelled collaborator, and `fuelOut`
for the structural-recursion fuel device of the undo replay (unreachable at
the fuel the wrappers supply). -/
inductive ExecRes where
  | ok (st : EdState) (quit : Bool)
  | err (k : Err) (st : EdState)
  | panicked
  | external
  | fuelOut
  deriving DecidableEq, Repr

/-- Mirrors `moveToLine`/`_findLine`: reposition the dot.  Line `len+1` is
representable (`_findLine` returns `nil` without panicking there); anything
else outside `[1, len]` panics. -/
def moveToLine (requiredLine : Int) (st : EdState) : Option EdState :=
  if (1 ≤ requiredLine ∧ requiredLine ≤ (st.buffer.length : Int)) ∨
      requiredLine = (st.buffer.length : Int) + 1 then
    some { st with lineNbr := requiredLine }
  else none

/-- Lines `s..e` (1-based, inclusive) of a buffer. -/
def lineSeg (s e : Int) (b : List String) : List String :=
  (b.take e.toNat).drop (s - 1).toNat

/-- The buffer with lines `s..e` removed. -/
def removeSeg (s e : Int) (b : List String) : List String :=
  b.take (s - 1).toNat ++ b.drop e.toNat

/-- Mirrors `deleteLines` (built on `iterateLines`): moves to the start line,
removes lines `s..e` and returns them.  `iterateLines` panics when the start
line cannot be positioned on, or when the walk runs past the end of the
buffer. -/
def deleteLines (s e : Int) (st : EdState) : Option (EdState × List String) :=
  if e < s then (moveToLine s st).map (fun st2 => (st2, []))
  else if 1 ≤ s ∧ e ≤ (st.buffer.length : Int) then
    some ({ st with buffer := removeSeg s e st.buffer, lineNbr := s }, lineSeg s e st.buffer)
  else none

/-- Mirrors `copyLines`: same iteration discipline as `deleteLines`, without
removing anything. -/
def copyLines (s e : Int) (st : EdState) : Option (EdState × List String) :=
  if e < s then (moveToLine s st).map (fun st2 => (st2, []))
  else if 1 ≤ s ∧ e ≤ (st.buffer.length : Int) then
    some ({ st with lineNbr := s }, lineSeg s e st.buffer)
  else none

/-- Mirrors `appendLines`: insert `newLines` after line `lineNbr` and move to
the last inserted line.  Appending at the end and at line 0 are the special
cases of the source; the general case positions on `lineNbr` and inserts
after it (panicking, via `moveToLine`/`InsertAfter`, outside `[0, len]`). -/
def appendLines (lineNbr : Int) (st : EdState) (newLines : List String) : Option EdState :=
  if newLines.length = 0 then some st
  else if lineNbr = (st.buffer.length : Int) then
    some { st with buffer := st.buffer ++ newLines,
                   lineNbr := ((st.buffer.length + newLines.length : Nat) : Int) }
  else if lineNbr = 0 then
    some { st with buffer := newLines ++ st.buffer, lineNbr := (newLines.length : Int) }
  else if 1 ≤ lineNbr ∧ lineNbr < (st.buffer.length : Int) then
    some { st with
           buffer := st.buffer.take lineNbr.toNat ++ newLines ++ st.buffer.drop lineNbr.toNat,
           lineNbr := lineNbr + newLines.length }
  else none

/-- Mirrors `addMark`: a pre-existing mark with the same name is replaced. -/
def addMark (name : String) (lineNbr : Int) (marks : List (String × Int)) :
    List (String × Int) :=
  (name, lineNbr) :: marks.filter (fun p => !(p.1 = name))

/-- Mirrors the `commandDelete` arm of `updateMarks`: marks inside the
deleted range are removed, marks above it are shifted down by the number of
deleted lines.  (The `startLine > endLine` guard returns early; callers
discard the error, so the table is then unchanged.) -/
def updateMarksDelete (startLine endLine : Int) (marks : List (String × Int)) :
    List (String × Int) :=
  if startLine > endLine then marks
  else
    let nbrLinesDeleted := endLine - startLine + 1
    marks.filterMap (fun p =>
      if p.2 ≤ endLine ∧ p.2 ≥ startLine then none
      else if p.2 > endLine then some (p.1, p.2 - nbrLinesDeleted)
      else some p)

/-- Mirrors the `commandMove` arm of `updateMarks`. -/
def updateMarksMove (startLine endLine destination : Int)
    (marks : List (String × Int)) : List (String × Int) :=
  if startLine > endLine then marks
  else
    let nbrLinesMoved := endLine - startLine + 1
    let movingFromAbove := startLine > destination
    marks.filterMap (fun p =>
      if movingFromAbove then
        if p.2 > endLine ∨ p.2 ≤ destination then some p
        else if p.2 ≤ endLine ∧ p.2 ≥ startLine then none
        else some (p.1, p.2 + nbrLinesMoved)
      else
        if p.2 < startLine ∨ p.2 > destination then some p
        else if p.2 ≤ endLine ∧ p.2 ≥ startLine then none
        else some (p.1, p.2 - nbrLinesMoved))

/-- Mirrors `State.addUndo`: does nothing while an undo is being processed;
otherwise pushes the inverse command, whose range is built from
`newAbsoluteAddress` values and a comma separator. -/
def addUndo (startA endA : Int) (command : String) (text : List String)
    (origCmd : Command) (st : EdState) : EdState :=
  if st.processingUndo then st
  else
    { st with undoStack :=
        { cmd := { addrRange := ⟨newAbsoluteAddress startA, newAbsoluteAddress endA, ","⟩,
                   addressIsResolved := false, resolvedStart := 0, resolvedEnd := 0,
                   cmd := command, restOfCmd := "" },
          text := text,
          originalCmd := origCmd } :: st.undoStack }

/-- Mirrors `createNewResolvedCommand`: copies the resolved addresses into a
fresh command (whose `addrRange` is the Go zero value) with the given letter
and argument. -/
def createNewResolvedCommand (cmd : Command) (newCmdIdent newRestOfCmd : String) :
    Res Command :=
  if !cmd.addressIsResolved then .err .addressNotResolved
  else
    .ok { addrRange := ⟨⟨[]⟩, ⟨[]⟩, ""⟩, addressIsResolved := true,
          resolvedStart := cmd.resolvedStart, resolvedEnd := cmd.resolvedEnd,
          cmd := newCmdIdent, restOfCmd := newRestOfCmd }

/-! ### Command operations

Each operation mirrors the method of the same name on `Command`.  Where the
source reads the block of input lines interactively (`a`, `i`, `c`), the
block is the `inputLines` parameter, matching the collaborator interface of
the specification (a pre-read block is what undo replay passes as well). -/

/-- Mirrors `AppendInsert`. -/
def AppendInsert (cmd : Command) (inputLines : List String) (st : EdState) : ExecRes :=
  if !cmd.addressIsResolved then .err .addressNotResolved st
  else
    let newLines := inputLines
    let nbrLinesEntered := newLines.length
    if nbrLinesEntered = 0 then .ok st false
    else
      let st1 := { st with changedSinceLastWrite := true }
      if (cmd.cmd = "a" ∧ cmd.resolvedStart = 0) ∨ (cmd.cmd = "i" ∧ cmd.resolvedStart ≤ 1) then
        let st2 := { st1 with buffer := newLines ++ st1.buffer }
        match moveToLine (nbrLinesEntered : Int) st2 with
        | none => .panicked
        | some st3 =>
            if !st3.processingUndo then
              .ok (addUndo 1 (nbrLinesEntered : Int) "d" newLines cmd st3) false
            else .ok st3 false
      else
        let startAddrForUndo :=
          if cmd.cmd = "i" then cmd.resolvedStart else cmd.resolvedStart + 1
        let endAddrForUndo :=
          if cmd.cmd = "i" then cmd.resolvedStart + nbrLinesEntered - 1
          else cmd.resolvedStart + nbrLinesEntered
        let lineNbr := if cmd.cmd = "i" then cmd.resolvedStart - 1 else cmd.resolvedStart
        match appendLines lineNbr st1 newLines with
        | none => .panicked
        | some st2 => .ok (addUndo startAddrForUndo endAddrForUndo "d" newLines cmd st2) false

/-- Mirrors `Delete`. -/
def Delete (cmd : Command) (addUndoFlag : Bool) (st : EdState) : ExecRes :=
  if !cmd.addressIsResolved then .err .addressNotResolved st
  else if cmd.resolvedStart = 0 then .err .invalidLine st
  else
    match deleteLines cmd.resolvedStart cmd.resolvedEnd st with
    | none => .panicked
    | some (st1, tempBuffer) =>
        if tempBuffer.length = 0 then .ok st1 false
        else
          let st2 := { st1 with cutBuffer := tempBuffer, changedSinceLastWrite := true }
          let bufferLen := st2.buffer.length
          let st3 :=
            { st2 with marks := updateMarksDelete cmd.resolvedStart cmd.resolvedEnd st2.marks }
          let st4 :=
            if addUndoFlag then
              if cmd.resolvedStart > (bufferLen : Int) then
                addUndo endOfFileConst endOfFileConst "a" tempBuffer cmd st3
              else addUndo cmd.resolvedStart cmd.resolvedStart "i" tempBuffer cmd st3
            else st3
          if bufferLen = 0 then .ok { st4 with lineNbr := 0 } false
          else
            let newLineNbr :=
              if cmd.resolvedStart > (bufferLen : Int) then (bufferLen : Int)
              else cmd.resolvedStart
            match moveToLine newLineNbr st4 with
            | none => .panicked
            | some st5 => .ok st5 false

/-- Mirrors `Change`: delete the addressed lines (without logging an undo),
then insert the entered lines at the same point, logging a self-inverse
`change` undo carrying the cut buffer (the lines just deleted). -/
def Change (cmd : Command) (inputLines : List String) (st : EdState) : ExecRes :=
  if !cmd.addressIsResolved then .err .addressNotResolved st
  else if cmd.resolvedStart = 0 then .err .invalidLine st
  else
    let newLines := inputLines
    if newLines.length = 0 then .ok st false
    else
      match createNewResolvedCommand cmd "d" cmd.restOfCmd with
      | .err k => .err k st
      | .panicked => .panicked
      | .ok deleteCmd =>
          match Delete deleteCmd false st with
          | .err k st2 => .err k st2
          | .panicked => .panicked
          | .external => .external
          | .fuelOut => .fuelOut
          | .ok st1 _ =>
              let atEOF := cmd.resolvedStart > (st1.buffer.length : Int)
              let startLineNbr :=
                if atEOF then (st1.buffer.length : Int) else cmd.resolvedStart
              let st2 := { st1 with changedSinceLastWrite := true }
              if atEOF then
                match appendLines startLineNbr st2 newLines with
                | none => .panicked
                | some st3 =>
                    .ok (addUndo (startLineNbr + 1) (startLineNbr + newLines.length) "c"
                      st3.cutBuffer cmd st3) false
              else
                match appendLines (startLineNbr - 1) st2 newLines with
                | none => .panicked
                | some st3 =>
                    .ok (addUndo startLineNbr (startLineNbr + newLines.length - 1) "c"
                      st3.cutBuffer cmd st3) false

/-- Replaces the first newline of a line by a space (the loop body of
`Join`). -/
def replaceFirstNL : List Char → List Char
  | [] => []
  | c :: rest => if c = '\n' then ' ' :: rest else c :: replaceFirstNL rest

/-- Mirrors `Join`: concatenate the addressed lines with their newlines
replaced by spaces, drop the trailing space, re-add the newline, and replace
the range by the joined line through `Change` (slicing an empty builder
panics). -/
def Join (cmd : Command) (st : EdState) : ExecRes :=
  if !cmd.addressIsResolved then .err .addressNotResolved st
  else
    match copyLines cmd.resolvedStart cmd.resolvedEnd st with
    | none => .panicked
    | some (st1, seg) =>
        let joinedRaw : List Char := (seg.map (fun l => replaceFirstNL l.toList)).flatten
        if joinedRaw.length = 0 then .panicked
        else
          let joinedLines : String := ⟨joinedRaw.dropLast ++ ['\n']⟩
          match createNewResolvedCommand cmd "c" cmd.restOfCmd with
          | .err k => .err k st1
          | .panicked => .panicked
          | .ok changeCommand => Change changeCommand [joinedLines] st1

/-- Mirrors `Linenumber` (prints only). -/
def Linenumber (cmd : Command) (st : EdState) : ExecRes :=
  if !cmd.addressIsResolved then .err .addressNotResolved st
  else .ok st false

/-- A single lowercase letter, as `singleLetterRE` accepts. -/
def isValidMarkName (s : String) : Bool :=
  match s.toList with
  | [c] => isLowerChar c
  | _ => false

/-- Mirrors `Mark`. -/
def Mark (cmd : Command) (st : EdState) : ExecRes :=
  if !cmd.addressIsResolved then .err .addressNotResolved st
  else if !isValidMarkName (goTrim cmd.restOfCmd) then .err .badMarkname st
  else if cmd.addrRange.stop.isSpecified then .err .rangeMayNotBeSpecified st
  else .ok { st with marks := addMark (goTrim cmd.restOfCmd) cmd.resolvedStart st.marks } false

/-- The destination-address computation of `Move`: the trimmed rest of the
command line, defaulting to the current line, parsed and resolved (both
failure modes become `invalid destination`). -/
def moveDest (matcher : String → String → Bool) (cmd : Command) (st : EdState) : Res Int :=
  let destStr := goTrim cmd.restOfCmd
  if destStr = "" then .ok st.lineNbr
  else
    match newAddress destStr with
    | .err _ => .err .invalidDestination
    | .panicked => .panicked
    | .ok destLine =>
        match calculateActualLineNumber matcher destLine st.lineNbr st.buffer st.marks with
        | .ok v => .ok v
        | .err _ => .err .invalidDestination
        | .panicked => .panicked

/-- Mirrors `Move`. -/
def Move (matcher : String → String → Bool) (cmd : Command) (st : EdState) : ExecRes :=
  if !cmd.addressIsResolved then .err .addressNotResolved st
  else
    match moveDest matcher cmd st with
    | .err k => .err k st
    | .panicked => .panicked
    | .ok destLineNbr =>
        if cmd.resolvedStart = 0 then .err .invalidLine st
        else if destLineNbr > (st.buffer.length : Int) then .err .invalidDestination st
        else if destLineNbr ≥ cmd.resolvedStart ∧ destLineNbr < cmd.resolvedEnd then
          .err .invalidDestination st
        else
          match deleteLines cmd.resolvedStart cmd.resolvedEnd st with
          | none => .panicked
          | some (st1, tempBuffer) =>
              if tempBuffer.length = 0 then .ok st1 false
              else
                let st2 :=
                  { st1 with marks :=
                      updateMarksMove cmd.resolvedStart cmd.resolvedEnd destLineNbr st1.marks }
                let destAdj :=
                  if destLineNbr ≥ cmd.resolvedStart then
                    destLineNbr - (cmd.resolvedEnd - cmd.resolvedStart + 1)
                  else destLineNbr
                match appendLines destAdj st2 tempBuffer with
                | none => .panicked
                | some st3 =>
                    let st4 :=
                      addUndo (destAdj + 1) (destAdj + tempBuffer.length) ")" tempBuffer cmd st3
                    .ok { st4 with changedSinceLastWrite := true } false

/-- Mirrors `_printRange`: output is dropped, the dot moves to the last line
printed.  Start line 0 is an error, a start beyond the end panics
(`panic` in the source), and walking past the end of the buffer panics. -/
def printRange (startLine endLine : Int) (st : EdState) : ExecRes :=
  if startLine = 0 then .err .invalidLine st
  else
    let endLine2 := if endLine = 0 then 1 else endLine
    if startLine > endLine2 then .panicked
    else if 1 ≤ startLine ∧ endLine2 ≤ (st.buffer.length : Int) then
      .ok { st with lineNbr := endLine2 } false
    else .panicked

/-- Mirrors `Print` (commands `p` and `n`). -/
def Print (cmd : Command) (st : EdState) : ExecRes :=
  if !cmd.addressIsResolved then .err .addressNotResolved st
  else printRange cmd.resolvedStart cmd.resolvedEnd st

/-- Mirrors `Put`. -/
def Put (cmd : Command) (st : EdState) : ExecRes :=
  if !cmd.addressIsResolved then .err .addressNotResolved st
  else if cmd.resolvedStart = 0 then .err .invalidLine st
  else if !(cmd.resolvedStart = cmd.resolvedEnd) then .err .rangeMayNotBeSpecified st
  else
    let startLineNbr :=
      if cmd.addrRange.start.isNotSpecified then st.lineNbr else cmd.resolvedStart
    let nbrLines := st.cutBuffer.length
    if 0 < nbrLines then
      match appendLines startLineNbr st st.cutBuffer with
      | none => .panicked
      | some st1 =>
          let st2 := { st1 with changedSinceLastWrite := true }
          .ok (addUndo (startLineNbr + 1) (startLineNbr + nbrLines) "d" [] cmd st2) false
    else .ok st false

/-- Go `strconv.Atoi`: an optional sign followed by digits. -/
def parseIntStr (s : String) : Option Int :=
  match s.toList with
  | [] => none
  | '+' :: ds =>
      if !ds.isEmpty ∧ ds.all isDigitChar then some (digitsToNat ds : Int) else none
  | '-' :: ds =>
      if !ds.isEmpty ∧ ds.all isDigitChar then some (-(digitsToNat ds : Int)) else none
  | ds => if ds.all isDigitChar then some (digitsToNat ds : Int) else none

/-- Mirrors `_scroll` (command `z`); printing itself is dropped as in
`printRange`. -/
def Scroll (cmd : Command) (st : EdState) : ExecRes :=
  if !cmd.addressIsResolved then .err .addressNotResolved st
  else if !cmd.addrRange.stop.isNotSpecified then .err .rangeMayNotBeSpecified st
  else
    let startLineNbr :=
      if cmd.addrRange.start.isNotSpecified then st.lineNbr + 1 else cmd.resolvedStart
    let stepR : Res EdState :=
      if !(cmd.restOfCmd = "") then
        match parseIntStr (goTrim cmd.restOfCmd) with
        | none => .err .invalidWindowSize
        | some n =>
            if n < 1 then .err .invalidWindowSize
            else .ok { st with windowSize := n }
      else .ok st
    match stepR with
    | .err k => .err k st
    | .panicked => .panicked
    | .ok st1 =>
        let endLineNbr := startLineNbr + st1.windowSize
        let s2 := if startLineNbr = 0 then 1 else startLineNbr
        let s3 := min s2 (st1.buffer.length : Int)
        let e3 := min endLineNbr (st1.buffer.length : Int)
        printRange s3 e3 st1

/-- Mirrors `Transfer`. -/
def Transfer (matcher : String → String → Bool) (cmd : Command) (st : EdState) : ExecRes :=
  match getAddressRange matcher cmd.addrRange st.lineNbr st.buffer st.marks with
  | .err k => .err k st
  | .panicked => .panicked
  | .ok (startLineNbr, endLineNbr) =>
      let destR : Res Int :=
        if goTrim cmd.restOfCmd = "" then .ok st.lineNbr
        else
          match newAddress (goTrim cmd.restOfCmd) with
          | .err _ => .err .invalidDestination
          | .panicked => .panicked
          | .ok destLine =>
              match calculateActualLineNumber matcher destLine st.lineNbr st.buffer st.marks with
              | .ok v => .ok v
              | .err k => .err k
              | .panicked => .panicked
      match destR with
      | .err k => .err k st
      | .panicked => .panicked
      | .ok destLineNbr =>
          if destLineNbr > (st.buffer.length : Int) then .err .invalidDestination st
          else
            match copyLines startLineNbr endLineNbr st with
            | none => .panicked
            | some (st1, tempBuffer) =>
                match appendLines destLineNbr st1 tempBuffer with
                | none => .panicked
                | some st2 =>
                    let st3 := { st2 with changedSinceLastWrite := true }
                    .ok (addUndo (destLineNbr + 1) (destLineNbr + tempBuffer.length) "d" [] cmd
                      st3) false

/-- Mirrors `Yank`. -/
def Yank (cmd : Command) (st : EdState) : ExecRes :=
  if !cmd.addressIsResolved then .err .addressNotResolved st
  else if cmd.resolvedStart = 0 then .err .invalidLine st
  else
    let currentAddress := st.lineNbr
    match copyLines cmd.resolvedStart cmd.resolvedEnd st with
    | none => .panicked
    | some (st1, tempBuffer) =>
        match moveToLine currentAddress { st1 with cutBuffer := tempBuffer } with
        | none => .panicked
        | some st2 => .ok st2 false

/-- The topics `Help` recognises (any other argument is an error). -/
def helpTopics : List String :=
  ["address", "a", "c", "d", "e", "E", "f", "g", "G", "v", "V", "h", "i", "j", "k",
   "l", "n", "p", "m", "P", "q", "Q", "r", "s", "t", "u", "w", "W", "wq", "x", "y",
   "z", "#", "="]

/-- Mirrors `Help` (prints only; an unknown topic is an error). -/
def Help (cmd : Command) (st : EdState) : ExecRes :=
  let subcmd := goTrim cmd.restOfCmd
  if subcmd = "" then .ok st false
  else if helpTopics.contains subcmd then .ok st false
  else .err .unrecognisedAddress st

/-- Mirrors `handleUndoMove`: resolve the stored range (the source reads the
`start` address for both ends), delete those lines, then re-insert the saved
text before the original command resolved start. -/
def handleUndoMove (matcher : String → String → Bool) (undoCmd : UndoEntry)
    (st : EdState) : ExecRes :=
  match calculateActualLineNumber matcher undoCmd.cmd.addrRange.start st.lineNbr st.buffer
      st.marks with
  | .err k => .err k st
  | .panicked => .panicked
  | .ok undoStartLine =>
      match calculateActualLineNumber matcher undoCmd.cmd.addrRange.start st.lineNbr st.buffer
          st.marks with
      | .err k => .err k st
      | .panicked => .panicked
      | .ok undoEndLine =>
          match deleteLines undoStartLine undoEndLine st with
          | none => .panicked
          | some (st1, _) =>
              match calculateActualLineNumber matcher undoCmd.originalCmd.addrRange.start
                  st1.lineNbr st1.buffer st1.marks with
              | .err k => .err k st1
              | .panicked => .panicked
              | .ok originalStartLine =>
                  match appendLines (originalStartLine - 1) st1 undoCmd.text with
                  | none => .panicked
                  | some st2 => .ok st2 false

/-- Returns the carried error of `ProcessCommand`, when the dispatched arm
does not assign a result of its own. -/
def withCarried (carried : Option Err) (st : EdState) (quit : Bool) : ExecRes :=
  match carried with
  | some k => .err k st
  | none => .ok st quit

/-! ### The command processor

`ProcessCommand` mirrors the source function of the same name.  The fuel
argument makes the mutual recursion with `Undo` (the replay of popped undo
entries) structural; each nesting level pops one undo entry and pushes none
(replay runs with `processingUndo` set), so the fuel the wrappers supply can
never run out.

Faithfulness notes, from the source:
* the check that a command takes no range *assigns* the error but does not
  return, so it only survives to the caller when the dispatched arm does not
  assign a result of its own and the resolution step is skipped;
* resolving the address overwrites that error with `nil` on success;
* commands delegated to unmodelled collaborators dispatch to `external`:
  `e`/`E` (read file), `r` (read file), `w` (write file), `g` (global,
  regex-driven), `s` (substitute, regex-replace engine), and the replay of a
  stored substitute undo list. -/

/-- Mirrors `ProcessCommand` (see the section comment).  The `u` arm inlines
`Undo` (pop an entry, replay it with `processingUndo` set — which suppresses
new undo entries —, dispatching specially on the two internal command
letters, and clear `processingUndo` again even when the replay errors); the
standalone `Undo` below restates it over this function. -/
def ProcessCommandF (matcher : String → String → Bool) :
    Nat → Command → List String → Bool → EdState → ExecRes
  | 0, _, _, _, _ => .fuelOut
  | fuel + 1, cmd0, enteredText, inGlobalCommand, st =>
      if inGlobalCommand ∧
          (["e", "E", "g", "G", "v", "V", "h", "q", "Q", "u", "w", "W"].contains cmd0.cmd) then
        .err .notAllowedInGlobalCommand st
      else
        let carried0 : Option Err :=
          if (["e", "E", "f", "h", "P", "q", "Q", "u"].contains cmd0.cmd) ∧
              cmd0.addrRange.IsSpecified then
            some .rangeMayNotBeSpecified
          else none
        let resolvedR : Res (Command × Option Err) :=
          if !cmd0.addressIsResolved then
            match calculateStartAndEndLineNumbers matcher cmd0.addrRange st.lineNbr st.buffer
                st.marks with
            | .err k => .err k
            | .panicked => .panicked
            | .ok se =>
                .ok ({ cmd0 with addressIsResolved := true, resolvedStart := se.1,
                                 resolvedEnd := se.2 }, none)
          else .ok (cmd0, carried0)
        match resolvedR with
        | .err k => .err k st
        | .panicked => .panicked
        | .ok (cmd, carried) =>
          if cmd.cmd = "a" ∨ cmd.cmd = "i" then AppendInsert cmd enteredText st
          else if cmd.cmd = "c" then Change cmd enteredText st
          else if cmd.cmd = "d" then Delete cmd true st
          else if cmd.cmd = "e" then
            if st.changedSinceLastWrite then withCarried carried st false
            else .external
          else if cmd.cmd = "E" then .external
          else if cmd.cmd = "f" then
            withCarried carried { st with defaultFilename := goTrim cmd.restOfCmd } false
          else if cmd.cmd = "g" then .external
          else if cmd.cmd = "G" ∨ cmd.cmd = "v" ∨ cmd.cmd = "V" ∨ cmd.cmd = "l" ∨
              cmd.cmd = "W" then
            withCarried carried st false
          else if cmd.cmd = "h" then Help cmd st
          else if cmd.cmd = "j" then Join cmd st
          else if cmd.cmd = "k" then Mark cmd st
          else if cmd.cmd = "m" then Move matcher cmd st
          else if cmd.cmd = "n" ∨ cmd.cmd = "p" then Print cmd st
          else if cmd.cmd = "P" then
            withCarried carried { st with showPrompt := !st.showPrompt } false
          else if cmd.cmd = "q" ∨ cmd.cmd = "Q" then
            if cmd.cmd = "q" ∧ st.changedSinceLastWrite then withCarried carried st false
            else withCarried carried st true
          else if cmd.cmd = "r" then .external
          else if cmd.cmd = "s" then .external
          else if cmd.cmd = "t" then Transfer matcher cmd st
          else if cmd.cmd = "u" then
            match st.undoStack with
            | [] => .err .nothingToUndo st
            | undoEntry :: rest =>
                let st1 := { st with undoStack := rest, processingUndo := true }
                let r : ExecRes :=
                  if undoEntry.cmd.cmd = ")" then handleUndoMove matcher undoEntry st1
                  else if undoEntry.cmd.cmd = "(" then .external
                  else ProcessCommandF matcher fuel undoEntry.cmd undoEntry.text false st1
                match r with
                | .ok st2 _ => .ok { st2 with processingUndo := false } false
                | .err k st2 => .err k { st2 with processingUndo := false }
                | .panicked => .panicked
                | .external => .external
                | .fuelOut => .fuelOut
          else if cmd.cmd = "w" then .external
          else if cmd.cmd = "x" then Put cmd st
          else if cmd.cmd = "y" then Yank cmd st
          else if cmd.cmd = "z" then Scroll cmd st
          else if cmd.cmd = "#" then .ok st false
          else if cmd.cmd = "=" then Linenumber cmd st
          else withCarried carried st false

/-- `ProcessCommand` with fuel that the undo-replay nesting can never
exhaust (each level pops one entry and pushes none). -/
def ProcessCommand (matcher : String → String → Bool) (cmd : Command)
    (enteredText : List String) (inGlobalCommand : Bool) (st : EdState) : ExecRes :=
  ProcessCommandF matcher (st.undoStack.length + 4) cmd enteredText inGlobalCommand st

/-- Mirrors `Undo` as a standalone entry point (identical to the `u` arm of
`ProcessCommandF`). -/
def Undo (matcher : String → String → Bool) (st : EdState) : ExecRes :=
  match st.undoStack with
  | [] => .err .nothingToUndo st
  | undoEntry :: rest =>
      let st1 := { st with undoStack := rest, processingUndo := true }
      let r : ExecRes :=
        if undoEntry.cmd.cmd = ")" then handleUndoMove matcher undoEntry st1
        else if undoEntry.cmd.cmd = "(" then .external
        else ProcessCommandF matcher (st1.undoStack.length + 4) undoEntry.cmd undoEntry.text
          false st1
      match r with
      | .ok st2 _ => .ok { st2 with processingUndo := false } false
      | .err k st2 => .err k { st2 with processingUndo := false }
      | .panicked => .panicked
      | .external => .external
      | .fuelOut => .fuelOut

/-! ### Material shared by the claim theorems -/

/-- A matcher for concrete runs whose addresses contain no search atom (the
atoms never reach the matcher in those runs). -/
def noMatcher : String → String → Bool := fun _ _ => false

/-- An already-resolved command, as the executor sees one after
`resolveAddress`; the range field is the Go zero value, as in
`createNewResolvedCommand`. -/
def resolvedCmd (letter : String) (s e : Int) : Command :=
  { addrRange := ⟨⟨[]⟩, ⟨[]⟩, ""⟩, addressIsResolved := true,
    resolvedStart := s, resolvedEnd := e, cmd := letter, restOfCmd := "" }

/-- An unresolved command built from a parsed range and the rest of the
input line, as `ParseCommand` produces one. -/
def commandOf (rng : AddressRange) (letter rest : String) : Command :=
  { addrRange := rng, addressIsResolved := false, resolvedStart := 0,
    resolvedEnd := 0, cmd := letter, restOfCmd := rest }

/-- Parse an address string and resolve it — the composition the source
applies to destination addresses, and what resolving an address string
denotes. -/
def resolveAddrStr (matcher : String → String → Bool) (s : String) (c : Int)
    (buffer : List String) (marks : List (String × Int)) : Res Int :=
  match newAddress s with
  | .ok a => calculateActualLineNumber matcher a c buffer marks
  | .err k => .err k
  | .panicked => .panicked

/-- A fresh session state over a given buffer, current line and mark table
(as `NewState` followed by loading the buffer leaves one). -/
def mkState (b : List String) (c : Int) (m : List (String × Int)) : EdState :=
  { buffer := b, cutBuffer := [], lineNbr := c, marks := m, undoStack := [],
    processingUndo := false, changedSinceLastWrite := false, defaultFilename := "",
    windowSize := 22, showPrompt := false }

/-! ### C2 — absolute versus relative number atoms -/

/-- C2: during address resolution a `Number` atom is a relative delta when
offset mode is set or the literal carried a sign, and an absolute
replacement otherwise; consequently `"3"` resolves to 3, `"+3"` to `c+3`,
and `"++-3"` to `c-1`. -/
theorem c2_number_absolute_or_relative (matcher : String → String → Bool)
    (buffer : List String) (marks : List (String × Int)) (c : Int)
    (h1 : 1 ≤ c) (hc3 : c + 3 ≤ (buffer.length : Int)) :
    (∀ (rest : List AddressPart) (l v : Int) (sgn offs : Bool),
        applyParts matcher buffer marks (.signednbr v sgn :: rest) l offs =
          applyParts matcher buffer marks rest (if offs ∨ sgn then l + v else v) true) ∧
    resolveAddrStr matcher "3" c buffer marks = .ok 3 ∧
    resolveAddrStr matcher "+3" c buffer marks = .ok (c + 3) ∧
    resolveAddrStr matcher "++-3" c buffer marks = .ok (c - 1) := by
  refine ⟨?_, ?_, ?_, ?_⟩
  · intro rest l v sgn offs
    cases offs <;> cases sgn <;> simp [applyParts]
  · have hp : newAddress "3" = .ok ⟨[.signednbr 3 false]⟩ := rfl
    simp only [resolveAddrStr, hp, calculateActualLineNumber, Address.isNotSpecified,
      applyParts, Bool.false_eq_true, if_false]
    rw [if_neg (by omega : ¬(3 : Int) < 0), if_neg (by omega : ¬(3 : Int) > (buffer.length : Int))]
  · have hp : newAddress "+3" = .ok ⟨[.signednbr 3 true]⟩ := rfl
    simp only [resolveAddrStr, hp, calculateActualLineNumber, Address.isNotSpecified,
      applyParts, Bool.false_eq_true, if_false, if_true]
    rw [if_neg (by omega : ¬c + 3 < 0), if_neg (by omega : ¬c + 3 > (buffer.length : Int))]
  · have hp : newAddress "++-3" = .ok ⟨[.inc, .inc, .signednbr (-3) true]⟩ := rfl
    simp only [resolveAddrStr, hp, calculateActualLineNumber, Address.isNotSpecified,
      applyParts, Bool.false_eq_true, if_false, if_true]
    rw [show c + 1 + 1 + -3 = c - 1 by ring]
    rw [if_neg (by omega : ¬c - 1 < 0), if_neg (by omega : ¬c - 1 > (buffer.length : Int))]

/-- C2 witness: the three resolutions at `c = 1` on a four-line buffer. -/
theorem c2_witness :
    resolveAddrStr noMatcher "3" 1 ["a", "b", "c", "d"] [] = .ok 3 ∧
    resolveAddrStr noMatcher "+3" 1 ["a", "b", "c", "d"] [] = .ok 4 ∧
    resolveAddrStr noMatcher "++-3" 1 ["a", "b", "c", "d"] [] = .ok 0 :=
  ⟨(c2_number_absolute_or_relative noMatcher ["a", "b", "c", "d"] [] 1 (by decide)
      (by decide)).2.1,
   (c2_number_absolute_or_relative noMatcher ["a", "b", "c", "d"] [] 1 (by decide)
      (by decide)).2.2.1,
   (c2_number_absolute_or_relative noMatcher ["a", "b", "c", "d"] [] 1 (by decide)
      (by decide)).2.2.2⟩

/-! ### C4 — resolution results lie in `[0, N]` -/

/-- C4 counterexample: the empty (valid, unspecified) address resolves
successfully to the current line without any bounds check, so with current
line 7 on a one-line buffer resolution succeeds with 7, outside `[0, 1]`. -/
theorem c4_counterexample :
    resolveAddrStr noMatcher "" 7 ["a"] [] = .ok 7 ∧
    ¬(0 ≤ (7 : Int) ∧ (7 : Int) ≤ ((["a"] : List String).length : Int)) := by
  exact ⟨rfl, by decide⟩

/-- C4 as amended: when the current line respects the dot invariant
`0 ≤ c ≤ N`, every successful resolution lies in `[0, N]`; for every
specified (non-empty) address the bound holds for any current line at all,
because a computed value outside `[0, N]` is rejected as an invalid-line
error, never clamped. -/
theorem c4_resolution_in_bounds (matcher : String → String → Bool) :
    (∀ (addr : Address) (c : Int) (buffer : List String) (marks : List (String × Int))
        (v : Int), 0 ≤ c → c ≤ (buffer.length : Int) →
        calculateActualLineNumber matcher addr c buffer marks = .ok v →
        0 ≤ v ∧ v ≤ (buffer.length : Int)) ∧
    (∀ (addr : Address) (c : Int) (buffer : List String) (marks : List (String × Int))
        (v : Int), addr.isSpecified = true →
        calculateActualLineNumber matcher addr c buffer marks = .ok v →
        0 ≤ v ∧ v ≤ (buffer.length : Int)) := by
  have hspec : ∀ (addr : Address) (c : Int) (buffer : List String)
      (marks : List (String × Int)) (v : Int), addr.isSpecified = true →
      calculateActualLineNumber matcher addr c buffer marks = .ok v →
      0 ≤ v ∧ v ≤ (buffer.length : Int) := by
    intro addr c buffer marks v hs h
    have hns : addr.isNotSpecified = false := by
      simpa [Address.isSpecified] using hs
    rw [calculateActualLineNumber, hns] at h
    simp only [Bool.false_eq_true, if_false] at h
    split at h
    · split_ifs at h with h0 h2 <;>
        first
        | (simp only [Res.ok.injEq] at h; omega)
        | simp at h
    · simp at h
    · simp at h
  refine ⟨?_, hspec⟩
  intro addr c buffer marks v h0 hN h
  by_cases hns : addr.isNotSpecified
  · rw [calculateActualLineNumber, if_pos hns] at h
    cases h
    exact ⟨h0, hN⟩
  · exact hspec addr c buffer marks v (by simp [Address.isSpecified, hns]) h

/-- C4 witness: a specified address on a concrete buffer, through the main
theorem. -/
theorem c4_witness :
    0 ≤ (2 : Int) ∧ (2 : Int) ≤ ((["a", "b"] : List String).length : Int) :=
  (c4_resolution_in_bounds noMatcher).2 ⟨[.signednbr 2 false]⟩ 1 ["a", "b"] [] 2
    (by decide) rfl

/-! ### C10 — searches on an empty buffer panic -/

/-- C10: resolving a forward or backward search address against an empty
buffer with current line 0 panics (the `_findLine` consistency check fires
before any error can be returned), for every pattern and mark table. -/
theorem c10_search_empty_buffer_panics (matcher : String → String → Bool)
    (pattern : String) (marks : List (String × Int)) :
    matchLineForward matcher 0 pattern [] = .panicked ∧
    matchLineBackward matcher 0 pattern [] = .panicked ∧
    calculateActualLineNumber matcher ⟨[.reFor pattern]⟩ 0 [] marks = .panicked ∧
    calculateActualLineNumber matcher ⟨[.reBack pattern]⟩ 0 [] marks = .panicked := by
  refine ⟨rfl, rfl, ?_, ?_⟩ <;>
    simp [calculateActualLineNumber, Address.isNotSpecified, applyParts,
      matchLineForward, matchLineBackward, findLine]

/-! ### C5 — range defaulting for `""`, `","` and `";"` -/

/-- C5 counterexample: on an empty buffer, the range parsed from `","`
resolves its start address `1` out of bounds and fails with
invalid-start-of-range instead of yielding `(1, 0)`. -/
theorem c5_counterexample :
    newRange "," = .ok ⟨⟨[.signednbr 1 false]⟩, ⟨[.dollar]⟩, ","⟩ ∧
    getAddressRange noMatcher ⟨⟨[.signednbr 1 false]⟩, ⟨[.dollar]⟩, ","⟩ 0 [] [] =
      .err .invalidStartOfRange := by
  exact ⟨rfl, rfl⟩

/-- C5 as amended: resolving the range parsed from the empty string yields
`(c, c)` for every current line and buffer; on a non-empty buffer the range
parsed from `","` resolves to `(1, N)`; and under the dot invariant
`0 ≤ c ≤ N` the range parsed from `";"` resolves to `(c, N)` (on an empty
buffer the `","` case fails bounds-checking instead). -/
theorem c5_range_defaulting (matcher : String → String → Bool) (c : Int)
    (buffer : List String) (marks : List (String × Int)) :
    (newRange "" = .ok ⟨newUnspecifiedAddress, newUnspecifiedAddress, ","⟩ ∧
      getAddressRange matcher ⟨newUnspecifiedAddress, newUnspecifiedAddress, ","⟩ c buffer
        marks = .ok (c, c)) ∧
    (1 ≤ (buffer.length : Int) →
      newRange "," = .ok ⟨⟨[.signednbr 1 false]⟩, ⟨[.dollar]⟩, ","⟩ ∧
      getAddressRange matcher ⟨⟨[.signednbr 1 false]⟩, ⟨[.dollar]⟩, ","⟩ c buffer marks =
        .ok (1, (buffer.length : Int))) ∧
    (0 ≤ c → c ≤ (buffer.length : Int) →
      newRange ";" = .ok ⟨⟨[.dot]⟩, ⟨[.dollar]⟩, ","⟩ ∧
      getAddressRange matcher ⟨⟨[.dot]⟩, ⟨[.dollar]⟩, ","⟩ c buffer marks =
        .ok (c, (buffer.length : Int))) := by
  refine ⟨⟨rfl, rfl⟩, fun hN => ⟨rfl, ?_⟩, fun h0 hN => ⟨rfl, ?_⟩⟩
  · simp only [getAddressRange, AddressRange.IsSpecified, Address.isNotSpecified,
      calculateStartAndEndLineNumbers, calculateActualLineNumber, applyParts,
      Bool.false_eq_true, if_false, Bool.and_self, Bool.not_false, Bool.not_true]
    rw [if_neg (by omega : ¬(1 : Int) < 0), if_neg (by omega : ¬(1 : Int) > (buffer.length : Int))]
    simp only []
    rw [if_neg (by omega : ¬(buffer.length : Int) < 0),
      if_neg (by omega : ¬(buffer.length : Int) > (buffer.length : Int))]
    simp only []
    rw [if_neg (by omega : ¬(0 ≤ (1:Int) ∧ 0 ≤ (buffer.length : Int) ∧ (1:Int) > (buffer.length : Int)))]
  · simp only [getAddressRange, AddressRange.IsSpecified, Address.isNotSpecified,
      calculateStartAndEndLineNumbers, calculateActualLineNumber, applyParts,
      Bool.false_eq_true, if_false, Bool.and_self, Bool.not_false, Bool.not_true]
    rw [if_neg (by omega : ¬c < 0), if_neg (by omega : ¬c > (buffer.length : Int))]
    simp only []
    rw [if_neg (by omega : ¬(buffer.length : Int) < 0),
      if_neg (by omega : ¬(buffer.length : Int) > (buffer.length : Int))]
    simp only []
    rw [if_neg (by omega : ¬(0 ≤ c ∧ 0 ≤ (buffer.length : Int) ∧ c > (buffer.length : Int)))]

/-- C5 witness: the three defaulting rules on a two-line buffer with current
line 2. -/
theorem c5_witness :
    getAddressRange noMatcher ⟨newUnspecifiedAddress, newUnspecifiedAddress, ","⟩ 2
      ["a", "b"] [] = .ok (2, 2) ∧
    getAddressRange noMatcher ⟨⟨[.signednbr 1 false]⟩, ⟨[.dollar]⟩, ","⟩ 2 ["a", "b"] [] =
      .ok (1, 2) ∧
    getAddressRange noMatcher ⟨⟨[.dot]⟩, ⟨[.dollar]⟩, ","⟩ 2 ["a", "b"] [] = .ok (2, 2) :=
  ⟨(c5_range_defaulting noMatcher 2 ["a", "b"] []).1.2,
   ((c5_range_defaulting noMatcher 2 ["a", "b"] []).2.1 (by decide)).2,
   ((c5_range_defaulting noMatcher 2 ["a", "b"] []).2.2 (by decide) (by decide)).2⟩

/-! ### Slicing facts used by the executor proofs -/

theorem length_lineSeg (b : List String) (s e : Int) (h1 : 1 ≤ s) (h2 : s ≤ e)
    (h3 : e ≤ (b.length : Int)) : (lineSeg s e b).length = (e + 1 - s).toNat := by
  simp only [lineSeg, List.length_drop, List.length_take]
  omega

theorem length_removeSeg (b : List String) (s e : Int) (h1 : 1 ≤ s) (h2 : s ≤ e)
    (h3 : e ≤ (b.length : Int)) :
    (removeSeg s e b).length = b.length - (e + 1 - s).toNat := by
  simp only [removeSeg, List.length_append, List.length_take, List.length_drop]
  omega

/-- Reinserting a removed middle segment at its old place restores the
list. -/
theorem take_seg_drop (b : List String) (i j : Nat) (hij : i ≤ j) (hj : j ≤ b.length) :
    b.take i ++ ((b.take j).drop i ++ b.drop j) = b := by
  have h1 : (b.take j).take i = b.take i := by
    rw [List.take_take, Nat.min_eq_left hij]
  calc b.take i ++ ((b.take j).drop i ++ b.drop j)
      = ((b.take j).take i ++ (b.take j).drop i) ++ b.drop j := by
        rw [h1, List.append_assoc]
    _ = b.take j ++ b.drop j := by rw [List.take_append_drop]
    _ = b := List.take_append_drop j b

/-! ### A full specification of `Delete` on an in-bounds resolved range -/

/-- The undo entry `Delete` pushes: insert-at-start of the saved lines, or,
when the delete reached the end of the buffer, an append whose address is
the stringified `endOfFile` sentinel. -/
def deleteUndoEntry (s e : Int) (st : EdState) : UndoEntry :=
  { cmd := { addrRange :=
               ⟨newAbsoluteAddress (if e = (st.buffer.length : Int) then endOfFileConst else s),
                newAbsoluteAddress (if e = (st.buffer.length : Int) then endOfFileConst else s),
                ","⟩,
             addressIsResolved := false, resolvedStart := 0, resolvedEnd := 0,
             cmd := if e = (st.buffer.length : Int) then "a" else "i", restOfCmd := "" },
    text := lineSeg s e st.buffer,
    originalCmd := resolvedCmd "d" s e }

set_option maxHeartbeats 1600000 in
/-- What `Delete` does to the whole state on an in-bounds resolved range. -/
theorem Delete_ok_spec (st : EdState) (s e : Int) (h1 : 1 ≤ s) (h2 : s ≤ e)
    (h3 : e ≤ (st.buffer.length : Int)) :
    Delete (resolvedCmd "d" s e) true st = .ok
      { st with
        buffer := removeSeg s e st.buffer,
        cutBuffer := lineSeg s e st.buffer,
        lineNbr := if e = (st.buffer.length : Int) then ((removeSeg s e st.buffer).length : Int)
                   else s,
        marks := updateMarksDelete s e st.marks,
        undoStack := (if st.processingUndo then [] else [deleteUndoEntry s e st]) ++
          st.undoStack,
        changedSinceLastWrite := true } false := by
  obtain ⟨b, cb, ln, mk, us, pu, ch, df, ws, sp⟩ := st
  simp only at h3
  by_cases heN : e = (b.length : Int)
  · subst heN
    have hseg := length_lineSeg b s (b.length : Int) h1 h2 h3
    have hrem := length_removeSeg b s (b.length : Int) h1 h2 h3
    have hs0 : ¬(s = 0) := by omega
    have hes : ¬((b.length : Int) < s) := by omega
    have htempnz : ¬((lineSeg s (b.length : Int) b).length = 0) := by omega
    have hgt : s > ((removeSeg s (b.length : Int) b).length : Int) := by omega
    by_cases hz : (removeSeg s (b.length : Int) b).length = 0
    · cases pu <;>
        (simp only [Delete, resolvedCmd, deleteLines, moveToLine, addUndo, deleteUndoEntry]
         simp [hs0, hes, h1, h3, htempnz, hgt, hz]
         try (split_ifs <;> simp_all <;> omega))
    · have hmv : 1 ≤ ((removeSeg s (b.length : Int) b).length : Int) ∧
          ((removeSeg s (b.length : Int) b).length : Int) ≤
            ((removeSeg s (b.length : Int) b).length : Int) := by omega
      cases pu <;>
        (simp only [Delete, resolvedCmd, deleteLines, moveToLine, addUndo, deleteUndoEntry]
         simp [hs0, hes, h1, h3, htempnz, hgt, hz, hmv]
         try (split_ifs <;> simp_all <;> omega))
  · have hseg := length_lineSeg b s e h1 h2 h3
    have hrem := length_removeSeg b s e h1 h2 h3
    have hs0 : ¬(s = 0) := by omega
    have hes : ¬(e < s) := by omega
    have htempnz : ¬((lineSeg s e b).length = 0) := by omega
    have hgt : ¬(s > ((removeSeg s e b).length : Int)) := by omega
    have hz : ¬((removeSeg s e b).length = 0) := by omega
    have hmv : 1 ≤ s ∧ s ≤ ((removeSeg s e b).length : Int) := by omega
    cases pu <;>
      (simp only [Delete, resolvedCmd, deleteLines, moveToLine, addUndo, deleteUndoEntry]
       simp [hs0, hes, h1, h3, htempnz, hgt, hz, hmv, heN]
       try (split_ifs <;> simp_all <;> omega))

/-! ### C7 — mark maintenance after delete -/

/-- C7: after a successful delete of `[s, e]` every mark inside the range is
removed, every mark above it is shifted down by `e - s + 1`, and every mark
below it is unchanged; concretely, on the five-line buffer with mark `a` at
line 2 and mark `b` at line 4, the command `1d` leaves `a` at line 1 and `b`
at line 3. -/
theorem c7_delete_mark_maintenance :
    (∀ (st : EdState) (s e : Int), 1 ≤ s → s ≤ e → e ≤ (st.buffer.length : Int) →
      ∃ st', Delete (resolvedCmd "d" s e) true st = .ok st' false ∧
        st'.marks = st.marks.filterMap (fun p =>
          if s ≤ p.2 ∧ p.2 ≤ e then none
          else if e < p.2 then some (p.1, p.2 - (e - s + 1))
          else some p)) ∧
    (newRange "1" = .ok ⟨⟨[.signednbr 1 false]⟩, newUnspecifiedAddress, ""⟩ ∧
      ∃ st', ProcessCommand noMatcher
          (commandOf ⟨⟨[.signednbr 1 false]⟩, newUnspecifiedAddress, ""⟩ "d" "") [] false
          (mkState ["1", "2", "3", "4", "5"] 2 [("a", 2), ("b", 4)]) = .ok st' false ∧
        st'.marks = [("a", 1), ("b", 3)]) := by
  constructor
  · intro st s e h1 h2 h3
    refine ⟨_, Delete_ok_spec st s e h1 h2 h3, ?_⟩
    show updateMarksDelete s e st.marks = _
    rw [updateMarksDelete, if_neg (by omega : ¬s > e)]
    refine congrArg (fun f => List.filterMap f st.marks) ?_
    funext p
    by_cases hin : s ≤ p.2 ∧ p.2 ≤ e
    · rw [if_pos ⟨hin.2, hin.1⟩, if_pos hin]
    · rw [if_neg (fun hc => hin ⟨hc.2, hc.1⟩), if_neg hin]
  · exact ⟨rfl, ⟨_, rfl, rfl⟩⟩

/-- C7 witness: the general mark rule applied to the scenario delete. -/
theorem c7_witness :
    ∃ st', Delete (resolvedCmd "d" 1 1) true
        (mkState ["1", "2", "3", "4", "5"] 2 [("a", 2), ("b", 4)]) = .ok st' false ∧
      st'.marks = ([("a", 2), ("b", 4)] : List (String × Int)).filterMap (fun p =>
        if 1 ≤ p.2 ∧ p.2 ≤ 1 then none
        else if 1 < p.2 then some (p.1, p.2 - (1 - 1 + 1))
        else some p) :=
  c7_delete_mark_maintenance.1 (mkState ["1", "2", "3", "4", "5"] 2 [("a", 2), ("b", 4)])
    1 1 (by decide) (by decide) (by decide)

/-! ### C9 — yank is non-mutating and idempotent -/

/-- C9: on a valid resolved range with `s ≥ 1`, yank replaces only the cut
buffer (the document store, dot, and undo stack are untouched), and running
the same yank again reproduces exactly the same state — idempotence. -/
theorem c9_yank_idempotent_nonmutating (st : EdState) (s e : Int) (h1 : 1 ≤ s)
    (h2 : s ≤ e) (h3 : e ≤ (st.buffer.length : Int)) (hc1 : 1 ≤ st.lineNbr)
    (hc2 : st.lineNbr ≤ (st.buffer.length : Int)) :
    Yank (resolvedCmd "y" s e) st = .ok { st with cutBuffer := lineSeg s e st.buffer } false ∧
    Yank (resolvedCmd "y" s e) { st with cutBuffer := lineSeg s e st.buffer } =
      .ok { st with cutBuffer := lineSeg s e st.buffer } false := by
  have hgen : ∀ st2 : EdState, st2.buffer = st.buffer → st2.lineNbr = st.lineNbr →
      Yank (resolvedCmd "y" s e) st2 = .ok { st2 with cutBuffer := lineSeg s e st2.buffer } false := by
    intro st2 hb hl
    obtain ⟨b, cb, ln, mk, us, pu, ch, df, ws, sp⟩ := st2
    simp only at hb hl
    subst hb hl
    have hs0 : ¬(s = 0) := by omega
    have hes : ¬(e < s) := by omega
    simp only [Yank, resolvedCmd, copyLines, moveToLine]
    simp [hs0, hes, h1, h3, hc1, hc2]
  exact ⟨hgen st rfl rfl, by
    have := hgen { st with cutBuffer := lineSeg s e st.buffer } rfl rfl
    simpa using this⟩

/-- C9 witness: yanking lines 1–2 of a three-line buffer, twice. -/
theorem c9_witness :
    Yank (resolvedCmd "y" 1 2) (mkState ["a", "b", "c"] 3 []) =
      .ok { mkState ["a", "b", "c"] 3 [] with cutBuffer := lineSeg 1 2 ["a", "b", "c"] }
        false ∧
    Yank (resolvedCmd "y" 1 2)
        { mkState ["a", "b", "c"] 3 [] with cutBuffer := lineSeg 1 2 ["a", "b", "c"] } =
      .ok { mkState ["a", "b", "c"] 3 [] with cutBuffer := lineSeg 1 2 ["a", "b", "c"] }
        false :=
  c9_yank_idempotent_nonmutating (mkState ["a", "b", "c"] 3 []) 1 2 (by decide) (by decide)
    (by decide) (by decide) (by decide)

/-! ### C6 — move semantics and self-overlap rejection -/

/-- C6: on the six-line buffer, `4,6m2` produces `a b d e f c` (dot on the
last moved line); and any move whose resolved destination `d` satisfies
`start ≤ d < end` is rejected with an invalid-destination error, leaving the
state untouched. -/
theorem c6_move (matcher : String → String → Bool) (cmd : Command) (st : EdState) (d : Int) :
    (newRange "4,6" = .ok ⟨⟨[.signednbr 4 false]⟩, ⟨[.signednbr 6 false]⟩, ","⟩ ∧
      ∃ st', ProcessCommand noMatcher
          (commandOf ⟨⟨[.signednbr 4 false]⟩, ⟨[.signednbr 6 false]⟩, ","⟩ "m" "2") [] false
          (mkState ["a", "b", "c", "d", "e", "f"] 6 []) = .ok st' false ∧
        st'.buffer = ["a", "b", "d", "e", "f", "c"] ∧ st'.lineNbr = 5) ∧
    (cmd.addressIsResolved = true → moveDest matcher cmd st = .ok d →
      1 ≤ cmd.resolvedStart → cmd.resolvedStart ≤ d → d < cmd.resolvedEnd →
      Move matcher cmd st = .err .invalidDestination st) := by
  constructor
  · exact ⟨rfl, ⟨_, rfl, rfl, rfl⟩⟩
  · intro hres hd hs1 hsd hde
    simp only [Move, hres, Bool.not_true, Bool.false_eq_true, if_false, hd]
    rw [if_neg (by omega : ¬cmd.resolvedStart = 0)]
    by_cases hlen : d > (st.buffer.length : Int)
    · rw [if_pos hlen]
    · rw [if_neg hlen,
        if_pos (show d ≥ cmd.resolvedStart ∧ d < cmd.resolvedEnd from ⟨by omega, hde⟩)]

/-- C6 witness: a move of `[4,6]` whose destination defaults to the current
line 5, inside the moved range, is rejected. -/
theorem c6_witness :
    Move noMatcher (resolvedCmd "m" 4 6) (mkState ["a", "b", "c", "d", "e", "f"] 5 []) =
      .err .invalidDestination (mkState ["a", "b", "c", "d", "e", "f"] 5 []) :=
  (c6_move noMatcher (resolvedCmd "m" 4 6) (mkState ["a", "b", "c", "d", "e", "f"] 5 []) 5).2
    rfl rfl (by decide) (by decide) (by decide)

/-! ### C1 — delete followed by one undo -/

theorem restore_front (b : List String) (e : Int) (h1 : 1 ≤ e)
    (h3 : e ≤ (b.length : Int)) : lineSeg 1 e b ++ removeSeg 1 e b = b := by
  have h0 : ((1 : Int) - 1).toNat = 0 := rfl
  simp only [lineSeg, removeSeg, h0, List.drop_zero, List.take_zero, List.nil_append]
  exact List.take_append_drop _ b

theorem restore_mid (b : List String) (s e : Int) (h1 : 1 ≤ s) (h2 : s ≤ e)
    (h3 : e ≤ (b.length : Int)) :
    (removeSeg s e b).take (s - 1).toNat ++ lineSeg s e b ++
      (removeSeg s e b).drop (s - 1).toNat = b := by
  have hlen : (b.take (s - 1).toNat).length = (s - 1).toNat := by
    rw [List.length_take]; omega
  simp only [removeSeg, lineSeg]
  rw [List.take_left' hlen, List.drop_left' hlen, List.append_assoc]
  exact take_seg_drop b (s - 1).toNat e.toNat (by omega) (by omega)

/-- Resolution of a single `newAbsoluteAddress` for a non-negative in-bounds
line number. -/
theorem resolve_abs (matcher : String → String → Bool) (s c : Int)
    (buffer : List String) (marks : List (String × Int)) (h1 : 0 ≤ s)
    (h3 : s ≤ (buffer.length : Int)) :
    calculateActualLineNumber matcher (newAbsoluteAddress s) c buffer marks = .ok s := by
  have hds : decide (s < 0) = false := decide_eq_false (by omega)
  have hlt : ¬s < 0 := by omega
  have hgt : ¬s > (buffer.length : Int) := by omega
  simp [calculateActualLineNumber, newAbsoluteAddress, Address.isNotSpecified, applyParts,
    hds, hlt, hgt]

/-- Resolution of the absolute pair stored by `addUndo` for non-negative
line numbers in bounds. -/
theorem resolve_abs_pair (matcher : String → String → Bool) (s t c : Int)
    (buffer : List String) (marks : List (String × Int)) (h1 : 0 ≤ s) (h2 : 0 ≤ t)
    (h3 : s ≤ (buffer.length : Int)) (h4 : t ≤ (buffer.length : Int)) (h5 : s ≤ t) :
    calculateStartAndEndLineNumbers matcher
      ⟨newAbsoluteAddress s, newAbsoluteAddress t, ","⟩ c buffer marks = .ok (s, t) := by
  have hs := resolve_abs matcher s c buffer marks h1 h3
  have ht := resolve_abs matcher t c buffer marks h2 h4
  have hbr : ¬(0 ≤ s ∧ 0 ≤ t ∧ s > t) := by omega
  have hnsS : (newAbsoluteAddress s).isNotSpecified = false := rfl
  have hnsT : (newAbsoluteAddress t).isNotSpecified = false := rfl
  simp [calculateStartAndEndLineNumbers, hnsS, hnsT, hs, ht, hbr]

/-- Replaying the insert that `Delete` logs restores the removed segment and
leaves the mark table and undo stack alone. -/
theorem insert_restores (st1 : EdState) (s e : Int) (b : List String)
    (hpu : st1.processingUndo = true) (hb : st1.buffer = removeSeg s e b)
    (h1 : 1 ≤ s) (h2 : s ≤ e) (h3 : e < (b.length : Int)) :
    AppendInsert
      { addrRange := ⟨newAbsoluteAddress s, newAbsoluteAddress s, ","⟩,
        addressIsResolved := true, resolvedStart := s, resolvedEnd := s,
        cmd := "i", restOfCmd := "" } (lineSeg s e b) st1 =
      .ok { st1 with buffer := b, lineNbr := e, changedSinceLastWrite := true } false := by
  obtain ⟨b1, cb, ln, mk, us, pu, ch, df, ws, sp⟩ := st1
  simp only at hpu hb
  subst hpu hb
  have hseg := length_lineSeg b s e h1 h2 (by omega)
  have hrem := length_removeSeg b s e h1 h2 (by omega)
  have hnz : ¬((lineSeg s e b).length = 0) := by omega
  by_cases hs1 : s = 1
  · subst hs1
    have hbuf : lineSeg 1 e b ++ removeSeg 1 e b = b := restore_front b e (by omega) (by omega)
    simp only [AppendInsert]
    rw [if_neg (by simp)]
    rw [if_neg hnz]
    rw [if_pos (Or.inr ⟨by trivial, by omega⟩)]
    simp only [moveToLine, hbuf]
    rw [if_pos (Or.inl ⟨by omega, by omega⟩)]
    simp only [Bool.not_true, Bool.false_eq_true, if_false]
    simp [EdState.mk.injEq]
    omega
  · have hbuf := restore_mid b s e h1 h2 (by omega)
    simp only [AppendInsert]
    rw [if_neg (by simp)]
    rw [if_neg hnz]
    rw [if_neg (by intro hcond; simp at hcond; omega)]
    simp only [appendLines, if_true]
    rw [if_neg hnz]
    rw [if_neg (by omega : ¬s - 1 = ((removeSeg s e b).length : Int))]
    rw [if_neg (by omega : ¬s - 1 = 0)]
    rw [if_pos (⟨by omega, by omega⟩ : 1 ≤ s - 1 ∧ s - 1 < ((removeSeg s e b).length : Int))]
    simp only [addUndo, if_pos rfl]
    have hq : (s - 1).toNat = s.toNat - 1 := by omega
    have hbuf2 : List.take (s.toNat - 1) (removeSeg s e b) ++
        (lineSeg s e b ++ List.drop (s.toNat - 1) (removeSeg s e b)) = b := by
      rw [← hq, ← List.append_assoc]; exact hbuf
    simp [hbuf2, EdState.mk.injEq]
    omega


/-- C1 counterexample: buffer `["a","b"]` with marks `m@1`, `n@2`; `1d`
followed by one undo restores the buffer byte-identically, but mark `m`
(inside the deleted range) is gone and mark `n` stays at its decremented
line 1 — the pre-delete mark table is not restored. -/
theorem c1_counterexample :
    (match Delete (resolvedCmd "d" 1 1) true (mkState ["a", "b"] 1 [("m", 1), ("n", 2)]) with
     | .ok st1 _ =>
        (match Undo noMatcher st1 with
         | .ok st2 _ => some (st2.buffer, st2.marks)
         | _ => none)
     | _ => none) = some (["a", "b"], [("n", 1)]) ∧
    ¬([("n", 1)] : List (String × Int)) = [("m", 1), ("n", 2)] :=
  ⟨rfl, by decide⟩

/-- C1 as amended: for a delete of `[s,e]` that does not reach the last
line, one undo restores the Document Store byte-identically and restores
the undo stack, but the mark table is NOT restored — it keeps the
post-delete table (marks in `[s,e]` removed, marks above shifted down by
the span length).  A delete that does reach the last line is worse still:
the undo entry's end-of-file sentinel is stringified to `"-2"` and
re-parsed as a relative address, so the replayed append resolves against
the post-delete dot and puts the saved lines in the wrong place — `3,5d`
then `u` on the five-line buffer succeeds with the rotated buffer
`l3 l4 l5 l1 l2` (second conjunct). -/
theorem c1_delete_undo_roundtrip (matcher : String → String → Bool) (st : EdState)
    (s e : Int) (hpu : st.processingUndo = false) (h1 : 1 ≤ s) (h2 : s ≤ e)
    (h3 : e < (st.buffer.length : Int)) :
    (∃ st1 st2, Delete (resolvedCmd "d" s e) true st = .ok st1 false ∧
      Undo matcher st1 = .ok st2 false ∧
      st2.buffer = st.buffer ∧ st2.undoStack = st.undoStack ∧
      st2.marks = updateMarksDelete s e st.marks) ∧
    (match Delete (resolvedCmd "d" 3 5) true (mkState ["l1", "l2", "l3", "l4", "l5"] 1 []) with
     | .ok stA _ =>
        (match Undo noMatcher stA with
         | .ok stB _ => some stB.buffer
         | _ => none)
     | _ => none) = some ["l3", "l4", "l5", "l1", "l2"] := by
  refine ⟨?_, rfl⟩
  obtain ⟨b, cb, ln, mk, us, pu, ch, df, ws, sp⟩ := st
  simp only at hpu h3 ⊢
  subst hpu
  have hD := Delete_ok_spec ⟨b, cb, ln, mk, us, false, ch, df, ws, sp⟩ s e h1 h2 (le_of_lt h3)
  have hne : ¬(e = (b.length : Int)) := by omega
  simp only [deleteUndoEntry, hne, if_false, Bool.false_eq_true, List.singleton_append] at hD
  refine ⟨_, ⟨b, lineSeg s e b, e, updateMarksDelete s e mk, us, false, true, df, ws, sp⟩,
    hD, ?_, rfl, rfl, rfl⟩
  simp only [Undo]
  rw [if_neg (by decide : ¬("i" : String) = ")")]
  rw [if_neg (by decide : ¬("i" : String) = "(")]
  rw [show us.length + 4 = us.length + 3 + 1 from rfl]
  rw [ProcessCommandF]
  have hbound : s ≤ ((removeSeg s e b).length : Int) := by
    have := length_removeSeg b s e h1 h2 (by omega)
    omega
  have hRes : calculateStartAndEndLineNumbers matcher
      ⟨newAbsoluteAddress s, newAbsoluteAddress s, ","⟩ s (removeSeg s e b)
      (updateMarksDelete s e mk) = .ok (s, s) :=
    resolve_abs_pair matcher s s s (removeSeg s e b) (updateMarksDelete s e mk)
      (by omega) (by omega) hbound hbound (le_refl s)
  simp +decide only [Bool.false_eq_true, false_and, if_false, Bool.not_false, if_true, hRes]
  rw [insert_restores ⟨removeSeg s e b, lineSeg s e b, s, updateMarksDelete s e mk, us,
    true, true, df, ws, sp⟩ s e b rfl rfl h1 h2 h3]

/-- C1 witness: the amended round trip on a three-line buffer deleting line
1 with a mark at line 2, together with the end-of-buffer corruption
scenario. -/
theorem c1_witness :
    (∃ st1 st2, Delete (resolvedCmd "d" 1 1) true (mkState ["a", "b", "c"] 1 [("m", 2)]) =
        .ok st1 false ∧
      Undo noMatcher st1 = .ok st2 false ∧
      st2.buffer = ["a", "b", "c"] ∧ st2.undoStack = [] ∧
      st2.marks = updateMarksDelete 1 1 [("m", 2)]) ∧
    (match Delete (resolvedCmd "d" 3 5) true (mkState ["l1", "l2", "l3", "l4", "l5"] 1 []) with
     | .ok stA _ =>
        (match Undo noMatcher stA with
         | .ok stB _ => some stB.buffer
         | _ => none)
     | _ => none) = some ["l3", "l4", "l5", "l1", "l2"] :=
  c1_delete_undo_roundtrip noMatcher (mkState ["a", "b", "c"] 1 [("m", 2)]) 1 1 rfl
    (by decide) (by decide) (by decide)

/-! ### C8 — change followed by one undo -/

/-- `Delete` without logging an undo entry (the internal delete of
`Change`): same postcondition as `Delete_ok_spec` with the undo stack
untouched. -/
theorem Delete_noundo_spec (st : EdState) (s e : Int) (h1 : 1 ≤ s) (h2 : s ≤ e)
    (h3 : e ≤ (st.buffer.length : Int)) :
    Delete (resolvedCmd "d" s e) false st = .ok
      { st with
        buffer := removeSeg s e st.buffer,
        cutBuffer := lineSeg s e st.buffer,
        lineNbr := if e = (st.buffer.length : Int) then ((removeSeg s e st.buffer).length : Int)
                   else s,
        marks := updateMarksDelete s e st.marks,
        changedSinceLastWrite := true } false := by
  obtain ⟨b, cb, ln, mk, us, pu, ch, df, ws, sp⟩ := st
  simp only at h3
  by_cases heN : e = (b.length : Int)
  · subst heN
    have hseg := length_lineSeg b s (b.length : Int) h1 h2 h3
    have hrem := length_removeSeg b s (b.length : Int) h1 h2 h3
    have hs0 : ¬(s = 0) := by omega
    have hes : ¬((b.length : Int) < s) := by omega
    have htempnz : ¬((lineSeg s (b.length : Int) b).length = 0) := by omega
    have hgt : s > ((removeSeg s (b.length : Int) b).length : Int) := by omega
    by_cases hz : (removeSeg s (b.length : Int) b).length = 0
    · simp only [Delete, resolvedCmd, deleteLines, moveToLine]
      simp [hs0, hes, h1, h3, htempnz, hgt, hz]
      try (split_ifs <;> simp_all <;> omega)
    · have hmv : 1 ≤ ((removeSeg s (b.length : Int) b).length : Int) ∧
          ((removeSeg s (b.length : Int) b).length : Int) ≤
            ((removeSeg s (b.length : Int) b).length : Int) := by omega
      simp only [Delete, resolvedCmd, deleteLines, moveToLine]
      simp [hs0, hes, h1, h3, htempnz, hgt, hz, hmv]
      try (split_ifs <;> simp_all <;> omega)
  · have hseg := length_lineSeg b s e h1 h2 h3
    have hrem := length_removeSeg b s e h1 h2 h3
    have hs0 : ¬(s = 0) := by omega
    have hes : ¬(e < s) := by omega
    have htempnz : ¬((lineSeg s e b).length = 0) := by omega
    have hgt : ¬(s > ((removeSeg s e b).length : Int)) := by omega
    have hz : ¬((removeSeg s e b).length = 0) := by omega
    have hmv : 1 ≤ s ∧ s ≤ ((removeSeg s e b).length : Int) := by omega
    simp only [Delete, resolvedCmd, deleteLines, moveToLine]
    simp [hs0, hes, h1, h3, htempnz, hgt, hz, hmv, heN]
    try (split_ifs <;> simp_all <;> omega)

/-- What `Change` does to the whole state on an in-bounds resolved range
with a non-empty replacement block: the addressed lines are replaced by the
block, dot moves to the last inserted line, marks are maintained as for the
internal delete, and a self-inverse `c` undo entry carrying the cut lines
is logged. -/
theorem Change_ok_spec (cmd : Command) (L : List String) (st : EdState) (s e : Int)
    (hres : cmd.addressIsResolved = true) (hS : cmd.resolvedStart = s)
    (hE : cmd.resolvedEnd = e) (hrest : cmd.restOfCmd = "")
    (h1 : 1 ≤ s) (h2 : s ≤ e) (h3 : e ≤ (st.buffer.length : Int)) (hk : 1 ≤ L.length) :
    Change cmd L st = .ok (addUndo s (s + L.length - 1) "c" (lineSeg s e st.buffer) cmd
      { st with
        buffer := st.buffer.take (s - 1).toNat ++ L ++ st.buffer.drop e.toNat,
        cutBuffer := lineSeg s e st.buffer,
        lineNbr := s - 1 + L.length,
        marks := updateMarksDelete s e st.marks,
        changedSinceLastWrite := true }) false := by
  obtain ⟨b, cb, ln, mk, us, pu, ch, df, ws, sp⟩ := st
  simp only at h3 ⊢
  have hD := Delete_noundo_spec ⟨b, cb, ln, mk, us, pu, ch, df, ws, sp⟩ s e h1 h2 h3
  simp only [resolvedCmd] at hD
  simp only [Change, createNewResolvedCommand, hres, hS, hE, hrest, Bool.not_true,
    Bool.false_eq_true, if_false]
  rw [if_neg (by omega : ¬s = 0)]
  rw [if_neg (by omega : ¬L.length = 0)]
  rw [hD]
  dsimp only
  by_cases heN : e = (b.length : Int)
  · subst heN
    have hremN := length_removeSeg b s (b.length : Int) h1 h2 h3
    have hsegN := length_lineSeg b s (b.length : Int) h1 h2 h3
    have hgt : s > ((removeSeg s (b.length : Int) b).length : Int) := by omega
    have hLnz : ¬(L.length = 0) := by omega
    have hdropN : List.drop ((b.length : Int)).toNat b = [] := by
      simp [Int.toNat_natCast]
    have hbufE : removeSeg s (b.length : Int) b ++ L =
        List.take (s - 1).toNat b ++ L ++ List.drop ((b.length : Int)).toNat b := by
      simp [removeSeg, hdropN]
    have hA : ((removeSeg s (b.length : Int) b).length : Int) + 1 = s := by omega
    have hB : ((removeSeg s (b.length : Int) b).length : Int) + (L.length : Int) =
        s + (L.length : Int) - 1 := by omega
    cases pu <;>
      (simp [appendLines, addUndo, hgt, hLnz, hbufE, hA, hB, EdState.mk.injEq] <;> omega)
  · have hrem := length_removeSeg b s e h1 h2 h3
    have hseg := length_lineSeg b s e h1 h2 h3
    have hngt : ¬(s > ((removeSeg s e b).length : Int)) := by omega
    have hLnz : ¬(L.length = 0) := by omega
    have hc1 : ¬(s - 1 = ((removeSeg s e b).length : Int)) := by omega
    have hc2 : ¬((0 : Int) = ((removeSeg s e b).length : Int)) := by omega
    by_cases hs1 : s = 1
    · subst hs1
      have hbuf1 : L ++ removeSeg 1 e b =
          List.take ((1 : Int) - 1).toNat b ++ L ++ List.drop e.toNat b := by
        simp [removeSeg]
      cases pu <;>
        (simp [appendLines, addUndo, hngt, hLnz, hc1, hc2, heN, hbuf1, EdState.mk.injEq] <;>
          omega)
    · have hc3 : ¬(s - 1 = 0) := by omega
      have hcond : 1 ≤ s - 1 ∧ s - 1 < ((removeSeg s e b).length : Int) := ⟨by omega, by omega⟩
      have htke : (s - 1).toNat = s.toNat - 1 := by omega
      have htake : List.take (s.toNat - 1) (removeSeg s e b) = List.take (s.toNat - 1) b := by
        simp only [removeSeg, ← htke]
        exact List.take_left' (by rw [List.length_take]; omega)
      have hdrop : List.drop (s.toNat - 1) (removeSeg s e b) = List.drop e.toNat b := by
        simp only [removeSeg, ← htke]
        exact List.drop_left' (by rw [List.length_take]; omega)
      cases pu <;>
        (simp [appendLines, addUndo, hngt, hLnz, hc1, hc2, hc3, heN, hs1, hcond, htake, hdrop,
           EdState.mk.injEq] <;> omega)

/-- C8 as amended: `2,3c` with a non-empty replacement block followed by
one undo restores the buffer byte-identically and restores the undo stack,
but dot ends on line 3 (the last restored line), not line 2. -/
theorem c8_change_undo_roundtrip (matcher : String → String → Bool) (st : EdState)
    (L : List String) (hpu : st.processingUndo = false) (hk : 1 ≤ L.length)
    (hN : 3 ≤ st.buffer.length) :
    ∃ st1 st2, Change (resolvedCmd "c" 2 3) L st = .ok st1 false ∧
      Undo matcher st1 = .ok st2 false ∧
      st2.buffer = st.buffer ∧ st2.undoStack = st.undoStack ∧ st2.lineNbr = 3 := by
  obtain ⟨b, cb, ln, mk, us, pu, ch, df, ws, sp⟩ := st
  simp only at hpu hN ⊢
  subst hpu
  have hC := Change_ok_spec (resolvedCmd "c" 2 3) L ⟨b, cb, ln, mk, us, false, ch, df, ws, sp⟩
    2 3 rfl rfl rfl rfl (by omega) (by omega) (by simp; omega) hk
  simp [addUndo] at hC
  have hseg : (lineSeg 2 3 b).length = 2 := by
    have := length_lineSeg b 2 3 (by omega) (by omega) (by omega)
    omega
  have hBlen : (List.take 1 b ++ (L ++ List.drop 3 b)).length = L.length + (b.length - 2) := by
    simp [List.length_append, List.length_take, List.length_drop]
    omega
  refine ⟨_, ⟨b, lineSeg 2 (2 + (L.length : Int) - 1) (List.take 1 b ++ (L ++ List.drop 3 b)),
    3, updateMarksDelete 2 (2 + (L.length : Int) - 1) (updateMarksDelete 2 3 mk), us, false,
    true, df, ws, sp⟩, hC, ?_, rfl, rfl, rfl⟩
  simp only [Undo]
  rw [if_neg (by decide : ¬("c" : String) = ")")]
  rw [if_neg (by decide : ¬("c" : String) = "(")]
  rw [show us.length + 4 = us.length + 3 + 1 from rfl]
  rw [ProcessCommandF]
  have hRes : calculateStartAndEndLineNumbers matcher
      ⟨newAbsoluteAddress 2, newAbsoluteAddress (2 + (L.length : Int) - 1), ","⟩
      (1 + (L.length : Int)) (List.take 1 b ++ (L ++ List.drop 3 b))
      (updateMarksDelete 2 3 mk) = .ok (2, 2 + (L.length : Int) - 1) :=
    resolve_abs_pair matcher 2 (2 + (L.length : Int) - 1) (1 + (L.length : Int))
      (List.take 1 b ++ (L ++ List.drop 3 b)) (updateMarksDelete 2 3 mk)
      (by omega) (by omega) (by omega) (by omega) (by omega)
  simp +decide only [Bool.false_eq_true, false_and, if_false, Bool.not_false, if_true, hRes]
  have hC2 := Change_ok_spec
    { addrRange := ⟨newAbsoluteAddress 2, newAbsoluteAddress (2 + (L.length : Int) - 1), ","⟩,
      addressIsResolved := true, resolvedStart := 2, resolvedEnd := 2 + (L.length : Int) - 1,
      cmd := "c", restOfCmd := "" } (lineSeg 2 3 b)
    ⟨List.take 1 b ++ (L ++ List.drop 3 b), lineSeg 2 3 b, 1 + (L.length : Int),
      updateMarksDelete 2 3 mk, us, true, true, df, ws, sp⟩
    2 (2 + (L.length : Int) - 1) rfl rfl rfl rfl (by omega) (by omega)
    (by first | omega | (dsimp only; omega)) (by first | omega | (dsimp only; omega))
  rw [hC2]
  have htB : List.take 1 (List.take 1 b ++ (L ++ List.drop 3 b)) = List.take 1 b :=
    List.take_left' (by rw [List.length_take]; omega)
  have hdB : List.drop ((2 + (L.length : Int)).toNat - 1)
      (List.take 1 b ++ (L ++ List.drop 3 b)) = List.drop 3 b := by
    have h1' : (2 + (L.length : Int)).toNat - 1 = 1 + L.length := by omega
    rw [h1', ← List.append_assoc]
    exact List.drop_left' (by simp [List.length_append, List.length_take]; omega)
  have hfin : List.take 1 b ++ (lineSeg 2 3 b ++ List.drop 3 b) = b := by
    have := take_seg_drop b 1 3 (by omega) (by omega)
    simpa [lineSeg] using this
  simp [addUndo, EdState.mk.injEq, htB, hdB, hfin, hseg]

/-- C8 counterexample: on the four-line buffer, `2,3c` with replacement
`X` and one undo restores the buffer, but dot is 3, not the 2 the claim
states. -/
theorem c8_counterexample :
    (match Change (resolvedCmd "c" 2 3) ["X"] (mkState ["l1", "l2", "l3", "l4"] 1 []) with
     | .ok st1 _ =>
        (match Undo noMatcher st1 with
         | .ok st2 _ => some (st2.buffer, st2.lineNbr)
         | _ => none)
     | _ => none) = some (["l1", "l2", "l3", "l4"], 3) ∧
    ¬(3 : Int) = 2 :=
  ⟨rfl, by decide⟩

/-- C8 witness: the amended round trip on a three-line buffer (the change
reaches the end of the buffer). -/
theorem c8_witness :
    ∃ st1 st2, Change (resolvedCmd "c" 2 3) ["X"]
        (mkState ["l1", "l2", "l3"] 1 []) = .ok st1 false ∧
      Undo noMatcher st1 = .ok st2 false ∧
      st2.buffer = ["l1", "l2", "l3"] ∧ st2.undoStack = [] ∧ st2.lineNbr = 3 :=
  c8_change_undo_roundtrip noMatcher (mkState ["l1", "l2", "l3"] 1 []) ["X"] rfl
    (by decide) (by decide)

/-! ### C3 — failed commands and state preservation

Error-inversion lemmas: each operation that returns an error hands back the
state it was given (up to fields outside the Document Store, Mark Table and
Undo Stack for `Join` and `Scroll`, which reposition the dot or set the
window size before failing). -/

theorem withCarried_err_inv (c : Option Err) (st : EdState) (q : Bool) (k : Err)
    (st' : EdState) (h : withCarried c st q = .err k st') : st' = st := by
  unfold withCarried at h
  try dsimp only at h
  repeat' split at h
  all_goals cases h <;> rfl

theorem AppendInsert_err_inv (cmd : Command) (t : List String) (st : EdState) (k : Err)
    (st' : EdState) (h : AppendInsert cmd t st = .err k st') :
    st'.buffer = st.buffer ∧ st'.marks = st.marks ∧ st'.undoStack = st.undoStack := by
  unfold AppendInsert at h
  try dsimp only at h
  repeat' split at h
  all_goals cases h <;> exact ⟨rfl, rfl, rfl⟩

theorem Delete_err_inv (cmd : Command) (f : Bool) (st : EdState) (k : Err)
    (st' : EdState) (h : Delete cmd f st = .err k st') : st' = st := by
  unfold Delete at h
  try dsimp only at h
  repeat' split at h
  all_goals cases h <;> rfl

theorem Yank_err_inv (cmd : Command) (st : EdState) (k : Err) (st' : EdState)
    (h : Yank cmd st = .err k st') : st' = st := by
  unfold Yank at h
  try dsimp only at h
  repeat' split at h
  all_goals cases h <;> rfl

theorem Mark_err_inv (cmd : Command) (st : EdState) (k : Err) (st' : EdState)
    (h : Mark cmd st = .err k st') : st' = st := by
  unfold Mark at h
  try dsimp only at h
  repeat' split at h
  all_goals cases h <;> rfl

theorem Help_err_inv (cmd : Command) (st : EdState) (k : Err) (st' : EdState)
    (h : Help cmd st = .err k st') : st' = st := by
  unfold Help at h
  try dsimp only at h
  repeat' split at h
  all_goals cases h <;> rfl

theorem Linenumber_err_inv (cmd : Command) (st : EdState) (k : Err) (st' : EdState)
    (h : Linenumber cmd st = .err k st') : st' = st := by
  unfold Linenumber at h
  try dsimp only at h
  repeat' split at h
  all_goals cases h <;> rfl

theorem Print_err_inv (cmd : Command) (st : EdState) (k : Err) (st' : EdState)
    (h : Print cmd st = .err k st') : st' = st := by
  unfold Print printRange at h
  try dsimp only at h
  repeat' split at h
  all_goals cases h <;> rfl

theorem Put_err_inv (cmd : Command) (st : EdState) (k : Err) (st' : EdState)
    (h : Put cmd st = .err k st') : st' = st := by
  unfold Put at h
  try dsimp only at h
  repeat' split at h
  all_goals cases h <;> rfl

theorem Move_err_inv (matcher : String → String → Bool) (cmd : Command) (st : EdState)
    (k : Err) (st' : EdState) (h : Move matcher cmd st = .err k st') : st' = st := by
  unfold Move at h
  try dsimp only at h
  repeat' split at h
  all_goals cases h <;> rfl

theorem Transfer_err_inv (matcher : String → String → Bool) (cmd : Command) (st : EdState)
    (k : Err) (st' : EdState) (h : Transfer matcher cmd st = .err k st') : st' = st := by
  simp only [Transfer] at h
  try dsimp only at h
  repeat' split at h
  all_goals cases h <;> rfl

theorem copyLines_some_inv (s e : Int) (st st1 : EdState) (seg : List String)
    (h : copyLines s e st = some (st1, seg)) :
    st1.buffer = st.buffer ∧ st1.marks = st.marks ∧ st1.undoStack = st.undoStack := by
  unfold copyLines moveToLine at h
  try dsimp only at h
  repeat' split at h
  all_goals try simp only [Option.map_some, Option.map_none] at h
  all_goals cases h <;> exact ⟨rfl, rfl, rfl⟩

theorem Change_err_inv (cmd : Command) (t : List String) (st : EdState) (k : Err)
    (st' : EdState) (h : Change cmd t st = .err k st') : st' = st := by
  unfold Change at h
  try dsimp only at h
  repeat' split at h
  all_goals try (cases h <;> rfl)
  all_goals (rename_i heq; cases h; exact Delete_err_inv _ _ _ _ _ heq)

theorem Scroll_err_inv (cmd : Command) (st : EdState) (k : Err) (st' : EdState)
    (h : Scroll cmd st = .err k st') :
    st'.buffer = st.buffer ∧ st'.marks = st.marks ∧ st'.undoStack = st.undoStack := by
  unfold Scroll printRange at h
  try dsimp only at h
  split at h
  · injection h with h1 h2
    subst h2
    exact ⟨rfl, rfl, rfl⟩
  · split at h
    · injection h with h1 h2
      subst h2
      exact ⟨rfl, rfl, rfl⟩
    · split at h
      · injection h with h1 h2
        subst h2
        exact ⟨rfl, rfl, rfl⟩
      · cases h
      · rename_i st1 hstep
        have h3 : st1.buffer = st.buffer ∧ st1.marks = st.marks ∧
            st1.undoStack = st.undoStack := by
          repeat' split at hstep
          all_goals first
            | (injection hstep with h4
               subst h4
               exact ⟨rfl, rfl, rfl⟩)
            | cases hstep
        repeat' split at h
        all_goals try (cases h)
        all_goals exact h3

theorem Join_err_inv (cmd : Command) (st : EdState) (k : Err) (st' : EdState)
    (h : Join cmd st = .err k st') :
    st'.buffer = st.buffer ∧ st'.marks = st.marks ∧ st'.undoStack = st.undoStack := by
  unfold Join at h
  try dsimp only at h
  split at h
  · injection h with h1 h2
    subst h2
    exact ⟨rfl, rfl, rfl⟩
  · split at h
    · cases h
    · rename_i st1 seg hcp
      split at h
      · cases h
      · split at h
        · injection h with h1 h2
          subst h2
          exact copyLines_some_inv _ _ _ _ _ hcp
        · cases h
        · have h2 := Change_err_inv _ _ _ _ _ h
          subst h2
          exact copyLines_some_inv _ _ _ _ _ hcp

/-- The `rangeMayNotBeSpecified` check of `ProcessCommand` (assigned, not
returned; it survives only through arms that consult the carried error). -/
def carriedOf (cmd0 : Command) : Option Err :=
  if (["e", "E", "f", "h", "P", "q", "Q", "u"].contains cmd0.cmd) ∧
      cmd0.addrRange.IsSpecified then
    some .rangeMayNotBeSpecified
  else none

/-- The command-dispatch stage of `ProcessCommand`, with the replay of a
popped undo entry abstracted into `replay` (instantiated with the
fuel-decremented processor in `ProcessCommandF_succ`). -/
def dispatchStage (replay : Command → List String → Bool → EdState → ExecRes)
    (matcher : String → String → Bool) (cmd : Command) (carried : Option Err)
    (enteredText : List String) (st : EdState) : ExecRes :=
  if cmd.cmd = "a" ∨ cmd.cmd = "i" then AppendInsert cmd enteredText st
  else if cmd.cmd = "c" then Change cmd enteredText st
  else if cmd.cmd = "d" then Delete cmd true st
  else if cmd.cmd = "e" then
    if st.changedSinceLastWrite then withCarried carried st false
    else .external
  else if cmd.cmd = "E" then .external
  else if cmd.cmd = "f" then
    withCarried carried { st with defaultFilename := goTrim cmd.restOfCmd } false
  else if cmd.cmd = "g" then .external
  else if cmd.cmd = "G" ∨ cmd.cmd = "v" ∨ cmd.cmd = "V" ∨ cmd.cmd = "l" ∨
      cmd.cmd = "W" then
    withCarried carried st false
  else if cmd.cmd = "h" then Help cmd st
  else if cmd.cmd = "j" then Join cmd st
  else if cmd.cmd = "k" then Mark cmd st
  else if cmd.cmd = "m" then Move matcher cmd st
  else if cmd.cmd = "n" ∨ cmd.cmd = "p" then Print cmd st
  else if cmd.cmd = "P" then
    withCarried carried { st with showPrompt := !st.showPrompt } false
  else if cmd.cmd = "q" ∨ cmd.cmd = "Q" then
    if cmd.cmd = "q" ∧ st.changedSinceLastWrite then withCarried carried st false
    else withCarried carried st true
  else if cmd.cmd = "r" then .external
  else if cmd.cmd = "s" then .external
  else if cmd.cmd = "t" then Transfer matcher cmd st
  else if cmd.cmd = "u" then
    match st.undoStack with
    | [] => .err .nothingToUndo st
    | undoEntry :: rest =>
        let st1 := { st with undoStack := rest, processingUndo := true }
        let r : ExecRes :=
          if undoEntry.cmd.cmd = ")" then handleUndoMove matcher undoEntry st1
          else if undoEntry.cmd.cmd = "(" then .external
          else replay undoEntry.cmd undoEntry.text false st1
        match r with
        | .ok st2 _ => .ok { st2 with processingUndo := false } false
        | .err k st2 => .err k { st2 with processingUndo := false }
        | .panicked => .panicked
        | .external => .external
        | .fuelOut => .fuelOut
  else if cmd.cmd = "w" then .external
  else if cmd.cmd = "x" then Put cmd st
  else if cmd.cmd = "y" then Yank cmd st
  else if cmd.cmd = "z" then Scroll cmd st
  else if cmd.cmd = "#" then .ok st false
  else if cmd.cmd = "=" then Linenumber cmd st
  else withCarried carried st false

/-- `ProcessCommandF` at positive fuel is the resolution stage followed by
the dispatch stage (definitional). -/
theorem ProcessCommandF_succ (matcher : String → String → Bool) (fuel : Nat)
    (cmd0 : Command) (t : List String) (inG : Bool) (st : EdState) :
    ProcessCommandF matcher (fuel + 1) cmd0 t inG st =
      if inG ∧
          (["e", "E", "g", "G", "v", "V", "h", "q", "Q", "u", "w", "W"].contains cmd0.cmd) then
        .err .notAllowedInGlobalCommand st
      else
        match (if !cmd0.addressIsResolved then
            match calculateStartAndEndLineNumbers matcher cmd0.addrRange st.lineNbr st.buffer
                st.marks with
            | .err k => .err k
            | .panicked => .panicked
            | .ok se =>
                .ok ({ cmd0 with addressIsResolved := true, resolvedStart := se.1,
                                 resolvedEnd := se.2 }, none)
          else .ok (cmd0, carriedOf cmd0) : Res (Command × Option Err)) with
        | .err k => .err k st
        | .panicked => .panicked
        | .ok (cmd, carried) => dispatchStage (ProcessCommandF matcher fuel) matcher cmd
            carried t st := rfl

/-- A failed dispatch of any command other than `u` leaves the Document
Store, the Mark Table and the Undo Stack exactly as they were. -/
theorem dispatchStage_err_inv (replay : Command → List String → Bool → EdState → ExecRes)
    (matcher : String → String → Bool) (c : Command) (carried : Option Err)
    (t : List String) (st : EdState) (k : Err) (st' : EdState)
    (hu : ¬c.cmd = "u")
    (h : dispatchStage replay matcher c carried t st = .err k st') :
    st'.buffer = st.buffer ∧ st'.marks = st.marks ∧ st'.undoStack = st.undoStack := by
  unfold dispatchStage at h
  by_cases hx0 : c.cmd = "a" ∨ c.cmd = "i"
  · rw [if_pos hx0] at h
    exact AppendInsert_err_inv _ _ _ _ _ h
  rw [if_neg hx0] at h
  by_cases hx1 : c.cmd = "c"
  · rw [if_pos hx1] at h
    rw [Change_err_inv _ _ _ _ _ h]
    exact ⟨rfl, rfl, rfl⟩
  rw [if_neg hx1] at h
  by_cases hx2 : c.cmd = "d"
  · rw [if_pos hx2] at h
    rw [Delete_err_inv _ _ _ _ _ h]
    exact ⟨rfl, rfl, rfl⟩
  rw [if_neg hx2] at h
  by_cases hx3 : c.cmd = "e"
  · rw [if_pos hx3] at h
    split at h
    · rw [withCarried_err_inv _ _ _ _ _ h]
      exact ⟨rfl, rfl, rfl⟩
    · cases h
  rw [if_neg hx3] at h
  by_cases hx4 : c.cmd = "E"
  · rw [if_pos hx4] at h
    cases h
  rw [if_neg hx4] at h
  by_cases hx5 : c.cmd = "f"
  · rw [if_pos hx5] at h
    rw [withCarried_err_inv _ _ _ _ _ h]
    exact ⟨rfl, rfl, rfl⟩
  rw [if_neg hx5] at h
  by_cases hx6 : c.cmd = "g"
  · rw [if_pos hx6] at h
    cases h
  rw [if_neg hx6] at h
  by_cases hx7 : c.cmd = "G" ∨ c.cmd = "v" ∨ c.cmd = "V" ∨ c.cmd = "l" ∨ c.cmd = "W"
  · rw [if_pos hx7] at h
    rw [withCarried_err_inv _ _ _ _ _ h]
    exact ⟨rfl, rfl, rfl⟩
  rw [if_neg hx7] at h
  by_cases hx8 : c.cmd = "h"
  · rw [if_pos hx8] at h
    rw [Help_err_inv _ _ _ _ h]
    exact ⟨rfl, rfl, rfl⟩
  rw [if_neg hx8] at h
  by_cases hx9 : c.cmd = "j"
  · rw [if_pos hx9] at h
    exact Join_err_inv _ _ _ _ h
  rw [if_neg hx9] at h
  by_cases hx10 : c.cmd = "k"
  · rw [if_pos hx10] at h
    rw [Mark_err_inv _ _ _ _ h]
    exact ⟨rfl, rfl, rfl⟩
  rw [if_neg hx10] at h
  by_cases hx11 : c.cmd = "m"
  · rw [if_pos hx11] at h
    rw [Move_err_inv _ _ _ _ _ h]
    exact ⟨rfl, rfl, rfl⟩
  rw [if_neg hx11] at h
  by_cases hx12 : c.cmd = "n" ∨ c.cmd = "p"
  · rw [if_pos hx12] at h
    rw [Print_err_inv _ _ _ _ h]
    exact ⟨rfl, rfl, rfl⟩
  rw [if_neg hx12] at h
  by_cases hx13 : c.cmd = "P"
  · rw [if_pos hx13] at h
    rw [withCarried_err_inv _ _ _ _ _ h]
    exact ⟨rfl, rfl, rfl⟩
  rw [if_neg hx13] at h
  by_cases hx14 : c.cmd = "q" ∨ c.cmd = "Q"
  · rw [if_pos hx14] at h
    split at h
    · rw [withCarried_err_inv _ _ _ _ _ h]
      exact ⟨rfl, rfl, rfl⟩
    · rw [withCarried_err_inv _ _ _ _ _ h]
      exact ⟨rfl, rfl, rfl⟩
  rw [if_neg hx14] at h
  by_cases hx15 : c.cmd = "r"
  · rw [if_pos hx15] at h
    cases h
  rw [if_neg hx15] at h
  by_cases hx16 : c.cmd = "s"
  · rw [if_pos hx16] at h
    cases h
  rw [if_neg hx16] at h
  by_cases hx17 : c.cmd = "t"
  · rw [if_pos hx17] at h
    rw [Transfer_err_inv _ _ _ _ _ h]
    exact ⟨rfl, rfl, rfl⟩
  rw [if_neg hx17] at h
  by_cases hx18 : c.cmd = "u"
  · exact absurd hx18 hu
  rw [if_neg hx18] at h
  by_cases hx19 : c.cmd = "w"
  · rw [if_pos hx19] at h
    cases h
  rw [if_neg hx19] at h
  by_cases hx20 : c.cmd = "x"
  · rw [if_pos hx20] at h
    rw [Put_err_inv _ _ _ _ h]
    exact ⟨rfl, rfl, rfl⟩
  rw [if_neg hx20] at h
  by_cases hx21 : c.cmd = "y"
  · rw [if_pos hx21] at h
    rw [Yank_err_inv _ _ _ _ h]
    exact ⟨rfl, rfl, rfl⟩
  rw [if_neg hx21] at h
  by_cases hx22 : c.cmd = "z"
  · rw [if_pos hx22] at h
    exact Scroll_err_inv _ _ _ _ h
  rw [if_neg hx22] at h
  by_cases hx23 : c.cmd = "#"
  · rw [if_pos hx23] at h
    cases h
  rw [if_neg hx23] at h
  by_cases hx24 : c.cmd = "="
  · rw [if_pos hx24] at h
    rw [Linenumber_err_inv _ _ _ _ h]
    exact ⟨rfl, rfl, rfl⟩
  rw [if_neg hx24] at h
  rw [withCarried_err_inv _ _ _ _ _ h]
  exact ⟨rfl, rfl, rfl⟩

/-- C3 as amended: for every command other than `u`, an execution that
returns an error leaves the Document Store, the Mark Table and the Undo
Stack exactly as they were before the call.  The `u` command violates the
claimed policy: it pops the undo entry before replaying it, so a failed
replay loses the entry (see the counterexample). -/
theorem c3_error_leaves_state_unchanged (matcher : String → String → Bool) (cmd : Command)
    (t : List String) (inG : Bool) (st : EdState) (k : Err) (st' : EdState)
    (hu : ¬cmd.cmd = "u")
    (h : ProcessCommand matcher cmd t inG st = .err k st') :
    st'.buffer = st.buffer ∧ st'.marks = st.marks ∧ st'.undoStack = st.undoStack := by
  unfold ProcessCommand at h
  rw [show st.undoStack.length + 4 = st.undoStack.length + 3 + 1 from rfl] at h
  rw [ProcessCommandF_succ] at h
  split at h
  · injection h with h1 h2
    subst h2
    exact ⟨rfl, rfl, rfl⟩
  · split at h
    · injection h with h1 h2
      subst h2
      exact ⟨rfl, rfl, rfl⟩
    · cases h
    · rename_i cmdc carried heq
      have hcc : cmdc.cmd = cmd.cmd := by
        repeat' split at heq
        all_goals first
          | (injection heq with h5
             injection h5 with h6 h7
             subst h6
             rfl)
          | cases heq
      exact dispatchStage_err_inv _ _ _ _ _ _ _ _ (by rw [hcc]; exact hu) h

/-- C3 counterexample: on the one-line buffer, `1d` pushes one undo entry;
the subsequent `u` fails (the stringified end-of-file sentinel resolves out
of bounds on the emptied buffer) and returns an error, yet the undo stack
has shrunk from one entry to zero — the mutation of a failed command
survived. -/
theorem c3_counterexample :
    (match ProcessCommand noMatcher (resolvedCmd "d" 1 1) [] false (mkState ["a"] 1 []) with
     | .ok st1 _ =>
        some (st1.undoStack.length,
          (match ProcessCommand noMatcher (resolvedCmd "u" 0 0) [] false st1 with
           | .err _ st2 => some st2.undoStack.length
           | _ => none))
     | _ => none) = some (1, some 0) ∧ ¬(0 = 1) :=
  ⟨rfl, by decide⟩

/-- C3 witness: a delete of line 0 fails with `invalidLine` and leaves the
state untouched. -/
theorem c3_witness :
    (mkState ["a"] 1 []).buffer = (mkState ["a"] 1 []).buffer ∧
    (mkState ["a"] 1 []).marks = (mkState ["a"] 1 []).marks ∧
    (mkState ["a"] 1 []).undoStack = (mkState ["a"] 1 []).undoStack :=
  c3_error_leaves_state_unchanged noMatcher (resolvedCmd "d" 0 0) [] false
    (mkState ["a"] 1 []) .invalidLine (mkState ["a"] 1 []) (by decide) rfl
